import Mathlib

/-!
# Verification of the `optuna_rapids.ipynb` notebook

Shallow embedding of the single notebook of this repository.  The notebook is
orchestration glue around external libraries (optuna, cuml, cudf, dask, joblib,
mlflow).  We embed the notebook's own functions faithfully from the source:
`timed`, `train_and_eval`, `objective`, `run_study`, `seq_call`,
`mlflow_callback`, `objective_mg`, the data-loading cell and the inline study
cells.  External library operations are fields of an `MLLib` record of effectful
operations; their documented behaviour (appending a call event, not mutating
frames already on the heap, determinism of a fixed-seed split) is stated as
separate contract predicates and assumed only where a claim needs it.

Effects are modelled with an explicit state-and-exception shape
`Eff ε α = World → Except ε α × World`: the `World` carries the Python heap of
frames (for mutation claims), the printed lines, the trace of delegated library
calls and a clock tick counter.  A raised Python exception is an `Except.error`
value; the surviving state is returned alongside it, so that "nothing further
was printed" and "the heap is untouched" remain observable on the error path.

Floating point scores are abstracted to an ordered type `Score` (the notebook
never computes with scores, it only stores, compares and prints them).
-/

/-- A reference to a dataframe/series object on the Python heap. -/
abbrev Ref := Nat

/-- Opaque payload of a tabular frame; the notebook never inspects contents. -/
abbrev Frame := List Int

/-- Abstract model of the floating-point accuracy scores.  Only ordering and
equality of scores are ever used by the notebook, so an ordered type suffices. -/
abbrev Score := Int

/-- A value logged as an mlflow metric: a trial's score, or NaN when the
callback substitutes `float("nan")` for a missing trial value. -/
inductive MetricVal where
  | num (s : Score)
  | nan
  deriving DecidableEq, Repr

/-- One delegated external-library call, with the configuration arguments that
the spec talks about (random seed, partition count, backend and worker count,
file paths). -/
inductive CallEv where
  | read_parquet (path : String)
  | drop_col (col : String)
  | col_astype (col : String)
  | train_test_split (random_state : Int)
  | rf_fit
  | rf_predict
  | accuracy_score
  | from_cudf (npartitions : Nat)
  | persist_across_workers
  | dask_rf_fit
  | dask_rf_predict
  | dask_compute
  | mlflow_start_run (run_name : String)
  | mlflow_log_params
  | mlflow_log_metrics
  | parallel_backend (backend : String) (n_jobs : Nat)
  deriving DecidableEq, Repr

/-- The name of a delegated call, forgetting its arguments. -/
def callName : CallEv → String
  | .read_parquet _ => "read_parquet"
  | .drop_col _ => "drop_col"
  | .col_astype _ => "col_astype"
  | .train_test_split _ => "train_test_split"
  | .rf_fit => "rf_fit"
  | .rf_predict => "rf_predict"
  | .accuracy_score => "accuracy_score"
  | .from_cudf _ => "from_cudf"
  | .persist_across_workers => "persist_across_workers"
  | .dask_rf_fit => "dask_rf_fit"
  | .dask_rf_predict => "dask_rf_predict"
  | .dask_compute => "dask_compute"
  | .mlflow_start_run _ => "mlflow_start_run"
  | .mlflow_log_params => "mlflow_log_params"
  | .mlflow_log_metrics => "mlflow_log_metrics"
  | .parallel_backend _ _ => "parallel_backend"

/-- A printed line.  Lines are modelled as structured events rather than
formatted strings (the `%8.4f` float formatting is not itself modelled). -/
inductive Line where
  | timedLine (name : String) (elapsed : Int)
  | nTrials (n : Nat)
  | bestHeader
  | bestValue (v : Option Score)
  | paramsHeader
  | paramEntry (key : String) (value : Int)
  | paramsDict (ps : List (String × Int))
  | results (rs : List (Score × Int × Int))
  deriving DecidableEq, Repr

/-- The dask cluster client (`c = Client(cluster)`); only the connected worker
ids can be observed by the notebook (`c.has_what().keys()`). -/
structure Client where
  workers : List Nat
  deriving DecidableEq, Repr

/-- The observable state threaded through the notebook: the heap of frame
objects, the printed lines, the delegated-call trace, and a tick counter
consumed by `time.time()`. -/
structure World where
  heap : List (Ref × Frame)
  printed : List Line
  calls : List CallEv
  ticks : Nat
  deriving DecidableEq, Repr

/-- An effectful computation: it may raise (an `Except.error`), and the state
at the moment of the outcome is returned alongside it. -/
abbrev Eff (ε α : Type) := World → Except ε α × World

/-- Sequencing of two effectful steps: a raised exception in the first step
skips the continuation and propagates. -/
def bindE {ε α β : Type} (m : Eff ε α) (k : α → Eff ε β) : Eff ε β :=
  fun σ =>
    match m σ with
    | (.error e, σ') => (.error e, σ')
    | (.ok a, σ') => k a σ'

/-- An effect-free result. -/
def pureE {ε α : Type} (a : α) : Eff ε α :=
  fun σ => (.ok a, σ)

/-- The Python builtin `print`: appends one line, never raises. -/
def printL {ε : Type} (l : Line) : Eff ε Unit :=
  fun σ => (.ok (), { σ with printed := σ.printed ++ [l] })

/-- One `time.time()` call consumes one clock tick. -/
def tick (σ : World) : World :=
  { σ with ticks := σ.ticks + 1 }

/-- `cuml.ensemble.RandomForestClassifier(max_depth=…, n_estimators=…)`:
constructing the classifier object just records the two hyperparameters. -/
structure RFC where
  max_depth : Int
  n_estimators : Int
  deriving DecidableEq, Repr

/-- `cuml.dask.ensemble.RandomForestClassifier(max_depth=…, n_estimators=…)`. -/
structure DaskRFC where
  max_depth : Int
  n_estimators : Int
  deriving DecidableEq, Repr

/-- Opaque handle to a fitted model. -/
abbrev Model := Nat

/-- The external libraries the notebook delegates to, as one record of
effectful operations.  Each field models one library entry point used by the
source; `empty_study_error` is the `ValueError` optuna raises when
`study.best_trial` is read from a study with no trials. -/
structure MLLib (ε : Type) where
  clock : Nat → Int
  read_parquet : String → Eff ε Ref
  drop_col : Ref → String → Eff ε Ref
  col_astype : Ref → String → Eff ε Ref
  train_test_split : Ref → Ref → Int → Eff ε (Ref × Ref × Ref × Ref)
  rf_fit : RFC → Ref → Ref → Eff ε Model
  rf_predict : Model → Ref → Eff ε Ref
  accuracy_score : Ref → Ref → Eff ε Score
  from_cudf : Ref → Nat → Eff ε Ref
  persist_across_workers :
    Client → Ref × Ref × Ref × Ref → List Nat → Eff ε (Ref × Ref × Ref × Ref)
  dask_rf_fit : DaskRFC → Ref → Ref → Eff ε Model
  dask_rf_predict : Model → Ref → Eff ε Ref
  dask_compute : Ref → Eff ε Ref
  mlflow_start_run : String → Eff ε Unit
  mlflow_log_params : List (String × Int) → Eff ε Unit
  mlflow_log_metrics : MetricVal → Eff ε Unit
  parallel_backend : String → Nat → Eff ε Unit
  empty_study_error : ε

/-- Model of an optuna `Trial` as handed to the objective: `suggest_int` asks
the external sampler for an integer, and `params` is the sampler's record of
the suggested values (what optuna exposes as `trial.params` afterwards). -/
structure Trial where
  params : List (String × Int)
  suggest_int : String → Int → Int → Int

/-- Optuna's documented contract for `Trial.suggest_int(name, low, high)`:
the sampled integer lies in the inclusive range `[low, high]`. -/
def SuggestInRange (t : Trial) : Prop :=
  ∀ name lo hi : _, lo ≤ hi →
    lo ≤ t.suggest_int name lo hi ∧ t.suggest_int name lo hi ≤ hi

/-- A finished trial as recorded in a study: its parameters and its value
(`None` for a trial that produced no value, as seen by callbacks). -/
structure TrialRecord where
  params : List (String × Int)
  value : Option Score
  deriving DecidableEq, Repr

/-- Optuna study direction. -/
inductive Direction where
  | maximize
  | minimize
  deriving DecidableEq, Repr

/-- Model of an optuna `Study`: the record the external optimizer keeps of a
named study, its storage URL, direction, and all trials so far. -/
structure StudyState where
  sampler : String
  study_name : String
  storage : String
  direction : Direction
  load_if_exists : Bool
  trials : List TrialRecord
  deriving DecidableEq, Repr

/-- Model of `optuna.create_study`: builds the study record from the supplied
arguments; with `load_if_exists=True` the trials already persisted in the
storage file (`prior`) are loaded, otherwise the study starts empty. -/
def create_study (sampler study_name storage : String) (direction : Direction)
    (load_if_exists : Bool) (prior : List TrialRecord) : StudyState :=
  { sampler := sampler
    study_name := study_name
    storage := storage
    direction := direction
    load_if_exists := load_if_exists
    trials := if load_if_exists then prior else [] }

/-- Comparison of optional trial values, with a missing value below every
present value (used by the maximizing `best_trial`). -/
def ovle : Option Score → Option Score → Bool
  | none, _ => true
  | some _, none => false
  | some a, some b => decide (a ≤ b)

/-- Of two trial records, the one optuna prefers in a maximizing study. -/
def pickBetter (a b : TrialRecord) : TrialRecord :=
  if ovle a.value b.value then b else a

/-- Model of `Study.best_trial` for the maximizing studies of this notebook:
a trial of maximal value, `none` on a study with no trials (where optuna
raises instead). -/
def best_trial : List TrialRecord → Option TrialRecord
  | [] => none
  | t :: ts => some (ts.foldl pickBetter t)

/-- Model of running a study's callbacks after a finished trial. -/
def runCallbacks {ε : Type} (cbs : List (StudyState → TrialRecord → Eff ε Unit))
    (study : StudyState) (tr : TrialRecord) : Eff ε Unit :=
  match cbs with
  | [] => pureE ()
  | cb :: rest => bindE (cb study tr) (fun _ => runCallbacks rest study tr)

/-- Model of optuna `Study.optimize`: the external sampler proposes the list
`ts` of trials (`n_trials` of them); each is evaluated with the objective `f`,
appended to the study as a finished record, and handed to the callbacks.  The
joblib `n_jobs` argument is configuration for the external backend and is
carried as data only; the trials' effects are modelled in proposal order. -/
def optimize {ε : Type} (f : Trial → Eff ε Score) (ts : List Trial)
    (n_jobs : Option Nat) (cbs : List (StudyState → TrialRecord → Eff ε Unit))
    (study : StudyState) : Eff ε StudyState :=
  match ts with
  | [] => pureE study
  | t :: rest =>
    bindE (f t) (fun v =>
      let study' := { study with trials := study.trials ++ [⟨t.params, some v⟩] }
      bindE (runCallbacks cbs study' ⟨t.params, some v⟩) (fun _ =>
        optimize f rest n_jobs cbs study'))

/-- The `timed` context manager of the notebook:

    @contextmanager
    def timed(name):
        t0 = time.time()
        yield
        t1 = time.time()
        print("..%-24s:  %8.4f" % (name, t1 - t0))

The enclosed block runs between the two `time.time()` calls; the `yield` is
not wrapped in `try/finally`, so an exception raised by the block is thrown
back into the generator at the yield point and propagates: `t1` is never read
and nothing is printed. -/
def timed {ε α : Type} (lib : MLLib ε) (name : String) (block : Eff ε α) :
    Eff ε α :=
  fun σ =>
    let t0 := lib.clock σ.ticks
    match block (tick σ) with
    | (.error e, σ') => (.error e, σ')
    | (.ok a, σ₁) =>
      let t1 := lib.clock σ₁.ticks
      (.ok a,
        { tick σ₁ with printed := σ₁.printed ++ [Line.timedLine name (t1 - t0)] })

/-- `n_workers = len(c.has_what().keys())`: the worker count queried once from
the cluster client. -/
def n_workers (c : Client) : Nat :=
  c.workers.length

/-- The fixed input path of the airline data. -/
def INPUT_FILE : String := "/home/hyperopt/hyperopt/data/air_par.parquet"

/-- The data-loading cell:

    df = cudf.read_parquet(INPUT_FILE)
    X, y = df.drop(["ArrDelayBinary"], axis=1), df["ArrDelayBinary"].astype('int32')

(`col_astype` models the column selection plus `astype('int32')` as one call). -/
def load_data {ε : Type} (lib : MLLib ε) : Eff ε (Ref × Ref) :=
  bindE (lib.read_parquet INPUT_FILE) (fun df =>
    bindE (lib.drop_col df "ArrDelayBinary") (fun X =>
      bindE (lib.col_astype df "ArrDelayBinary") (fun y =>
        pureE (X, y))))

/-- `train_and_eval` from the notebook:

    def train_and_eval(X_param, y_param, max_depth=16, n_estimators=100):
        X_train, X_valid, y_train, y_valid = train_test_split(X_param, y_param, random_state=77)
        classifier = cuml.ensemble.RandomForestClassifier(max_depth=max_depth,
                         n_estimators=n_estimators)
        classifier.fit(X_train, y_train)
        y_pred = classifier.predict(X_valid)
        score = accuracy_score(y_valid, y_pred)
        return score
-/
def train_and_eval {ε : Type} (lib : MLLib ε) (X_param y_param : Ref)
    (max_depth : Int := 16) (n_estimators : Int := 100) : Eff ε Score :=
  bindE (lib.train_test_split X_param y_param 77) (fun q =>
    match q with
    | (X_train, X_valid, y_train, y_valid) =>
      let classifier : RFC := { max_depth := max_depth, n_estimators := n_estimators }
      bindE (lib.rf_fit classifier X_train y_train) (fun fitted =>
        bindE (lib.rf_predict fitted X_valid) (fun y_pred =>
          lib.accuracy_score y_valid y_pred)))

/-- The optuna objective of the notebook:

    def objective(trial, X_param, y_param):
        max_depth = trial.suggest_int("max_depth", 10, 15)
        n_estimators = trial.suggest_int("n_estimators", 200, 700)
        score = train_and_eval(X_param, y_param, max_depth=max_depth,
                               n_estimators=n_estimators)
        return score
-/
def objective {ε : Type} (lib : MLLib ε) (trial : Trial) (X_param y_param : Ref) :
    Eff ε Score :=
  let max_depth := trial.suggest_int "max_depth" 10 15
  let n_estimators := trial.suggest_int "n_estimators" 200 700
  train_and_eval lib X_param y_param max_depth n_estimators

/-- `seq_call` from the notebook:

    def seq_call(X, y, max_depth, n_estimators):
        score = train_and_eval(X, y, max_depth=max_depth, n_estimators = n_estimators)
        return score, max_depth, n_estimators
-/
def seq_call {ε : Type} (lib : MLLib ε) (X y : Ref) (max_depth n_estimators : Int) :
    Eff ε (Score × Int × Int) :=
  bindE (train_and_eval lib X y max_depth n_estimators) (fun score =>
    pureE (score, max_depth, n_estimators))

/-- `run_study` from the notebook: creates the study (maximize,
`load_if_exists=True`, sqlite storage derived from the study name), runs the
optimization inside the dask joblib backend with `n_jobs=n_workers`, all inside
`timed(study_name)`, then prints the finished-trial count and the best trial.
Reading `study.best_trial` on a study with no trials raises optuna's error. -/
def run_study {ε : Type} (lib : MLLib ε) (c : Client) (X y : Ref)
    (ts : List Trial) (prior : List TrialRecord)
    (sampler : String := "TPESampler") (study_name : String := "Optuna-MultiGPU")
    (callbacks : List (StudyState → TrialRecord → Eff ε Unit) := []) :
    Eff ε StudyState :=
  fun σ =>
    match timed lib study_name (fun σ₀ =>
        let study := create_study sampler study_name
          ("sqlite:///_" ++ study_name ++ ".db") Direction.maximize true prior
        bindE (lib.parallel_backend "dask" (n_workers c))
          (fun _ => optimize (fun t => objective lib t X y) ts (some (n_workers c))
            callbacks study) σ₀) σ with
    | (.error e, σ') => (.error e, σ')
    | (.ok study, σ₁) =>
      let σ₂ := { σ₁ with printed :=
        σ₁.printed ++ [Line.nTrials study.trials.length, Line.bestHeader] }
      match best_trial study.trials with
      | none => (.error lib.empty_study_error, σ₂)
      | some tr =>
        (.ok study,
          { σ₂ with printed := σ₂.printed
              ++ [Line.bestValue tr.value, Line.paramsHeader]
              ++ tr.params.map (fun p => Line.paramEntry p.1 p.2) })

/-- The value mlflow_callback logs as the "accuracy" metric:

    trial_value = trial.value if trial.value is not None else float("nan")
-/
def mlflowMetricArg (trial : TrialRecord) : MetricVal :=
  match trial.value with
  | some v => MetricVal.num v
  | none => MetricVal.nan

/-- `mlflow_callback` from the notebook:

    def mlflow_callback(study, trial):
        trial_value = trial.value if trial.value is not None else float("nan")
        with mlflow.start_run(run_name=study.study_name):
            print(trial.params)
            mlflow.log_params(trial.params)
            mlflow.log_metrics({"accuracy": trial_value})

(the closing of the mlflow run on block exit is not modelled). -/
def mlflow_callback {ε : Type} (lib : MLLib ε) (study : StudyState)
    (trial : TrialRecord) : Eff ε Unit :=
  let trial_value := mlflowMetricArg trial
  bindE (lib.mlflow_start_run study.study_name) (fun _ =>
    bindE (printL (Line.paramsDict trial.params)) (fun _ =>
      bindE (lib.mlflow_log_params trial.params) (fun _ =>
        lib.mlflow_log_metrics trial_value)))

/-- `objective_mg` from the notebook (the multi-GPU objective): samples the two
hyperparameters, splits with `random_state=77`, converts each of the four
train/validation frames with `npartitions=2`, persists them across the cluster
workers, then fits, predicts, computes and scores with the dask estimator. -/
def objective_mg {ε : Type} (lib : MLLib ε) (c : Client) (ws : List Nat)
    (trial : Trial) (X y : Ref) : Eff ε Score :=
  let max_depth := trial.suggest_int "max_depth" 10 15
  let n_estimators := trial.suggest_int "n_estimators" 200 700
  bindE (lib.train_test_split X y 77) (fun q =>
    match q with
    | (X_train, X_valid, y_train, y_valid) =>
      let classifier : DaskRFC := { max_depth := max_depth, n_estimators := n_estimators }
      bindE (lib.from_cudf X_train 2) (fun X_train_dask =>
        bindE (lib.from_cudf X_valid 2) (fun X_valid_dask =>
          bindE (lib.from_cudf y_train 2) (fun y_train_dask =>
            bindE (lib.from_cudf y_valid 2) (fun y_valid_dask =>
              bindE (lib.persist_across_workers c
                  (X_train_dask, X_valid_dask, y_train_dask, y_valid_dask) ws) (fun p =>
                match p with
                | (Xtd, Xvd, ytd, _yvd) =>
                  bindE (lib.dask_rf_fit classifier Xtd ytd) (fun fitted =>
                    bindE (lib.dask_rf_predict fitted Xvd) (fun y_pred =>
                      bindE (lib.dask_compute y_pred) (fun computed =>
                        lib.accuracy_score y_valid computed)))))))))

/-- The inline loky-backend cell:

    name = "optuna-joblib-loky-backend"
    with timed(name):
        study = optuna.create_study(sampler=optuna.samplers.TPESampler(),
                                    study_name=name,
                                    storage="sqlite:///_"+name+".db",
                                    direction="maximize",
                                    load_if_exists=True)
        with parallel_backend("loky", n_jobs=n_workers):
            study.optimize(lambda trial: objective(trial, X, y),
                           n_trials=N_TRIALS, n_jobs=n_workers)
-/
def cell_loky {ε : Type} (lib : MLLib ε) (c : Client) (X y : Ref)
    (ts : List Trial) (prior : List TrialRecord) : Eff ε StudyState :=
  let name := "optuna-joblib-loky-backend"
  timed lib name (fun σ =>
    let study := create_study "TPESampler" name ("sqlite:///_" ++ name ++ ".db")
      Direction.maximize true prior
    bindE (lib.parallel_backend "loky" (n_workers c))
      (fun _ => optimize (fun t => objective lib t X y) ts (some (n_workers c))
        [] study) σ)

/-- The inline plain-optuna cell (`name = "optuna-simple"`, timed as
`"no-dask-no-joblib"`, no parallel backend, no `n_jobs`). -/
def cell_simple {ε : Type} (lib : MLLib ε) (X y : Ref)
    (ts : List Trial) (prior : List TrialRecord) : Eff ε StudyState :=
  let name := "optuna-simple"
  timed lib "no-dask-no-joblib" (fun σ =>
    let study := create_study "TPESampler" name ("sqlite:///_" ++ name ++ ".db")
      Direction.maximize true prior
    optimize (fun t => objective lib t X y) ts none [] study σ)

/-- The `Parallel()(delayed(seq_call)(X, y, …) for i in range(N_TRIALS))`
comprehension of the joblib-dask cell: one `seq_call` task per index, results
collected in order (the task list the notebook hands to the external joblib
executor). -/
def seq_call_tasks {ε : Type} (lib : MLLib ε) (X y : Ref)
    (pmd pne : Nat → Int) : List Nat → Eff ε (List (Score × Int × Int))
  | [] => pureE []
  | i :: rest =>
    bindE (seq_call lib X y (pmd i) (pne i)) (fun r =>
      bindE (seq_call_tasks lib X y pmd pne rest) (fun rs =>
        pureE (r :: rs)))

/-- The inline joblib-dask sequential-call cell:

    name = "joblib-dask-backend"
    with timed(name):
        with parallel_backend("dask", n_jobs=n_workers, client=c, scatter=[X,y]):
            results = Parallel()(delayed(seq_call)(X, y, max_depth=params_max_depth[i],
                         n_estimators=params_n_estimators[i]) for i in range(N_TRIALS))
        print(results)
-/
def cell_seq_dask {ε : Type} (lib : MLLib ε) (c : Client) (X y : Ref)
    (pmd pne : Nat → Int) (N_TRIALS : Nat) : Eff ε (List (Score × Int × Int)) :=
  let name := "joblib-dask-backend"
  timed lib name (fun σ =>
    bindE (lib.parallel_backend "dask" (n_workers c))
      (fun _ =>
        bindE (seq_call_tasks lib X y pmd pne (List.range N_TRIALS)) (fun results =>
          bindE (printL (Line.results results)) (fun _ =>
            pureE results))) σ)

/-- The inline multi-GPU-estimator cell (`name = "optuna-mnmg-joblib---"`):
creates the study exactly like the others and optimizes `objective_mg` inside
the dask backend with `n_jobs=n_workers` (the surrounding
`performance_report` context manager is not modelled). -/
def cell_mnmg {ε : Type} (lib : MLLib ε) (c : Client) (X y : Ref)
    (ts : List Trial) (prior : List TrialRecord) : Eff ε StudyState :=
  let name := "optuna-mnmg-joblib---"
  timed lib name (fun σ =>
    let study := create_study "TPESampler" name ("sqlite:///_" ++ name ++ ".db")
      Direction.maximize true prior
    bindE (lib.parallel_backend "dask" (n_workers c))
      (fun _ => optimize (fun t => objective_mg lib c c.workers t X y) ts
        none [] study) σ)

/-! ## Basic lemmas about the effect combinators -/

theorem bindE_err {ε α β : Type} {m : Eff ε α} {k : α → Eff ε β} {σ σ' : World}
    {e : ε} (h : m σ = (.error e, σ')) : bindE m k σ = (.error e, σ') := by
  simp only [bindE, h]

theorem bindE_ok {ε α β : Type} {m : Eff ε α} {k : α → Eff ε β} {σ σ' : World}
    {a : α} (h : m σ = (.ok a, σ')) : bindE m k σ = k a σ' := by
  simp only [bindE, h]

theorem timed_err {ε α : Type} {lib : MLLib ε} {name : String} {block : Eff ε α}
    {σ σ' : World} {e : ε} (h : block (tick σ) = (.error e, σ')) :
    timed lib name block σ = (.error e, σ') := by
  simp only [timed, h]

theorem timed_ok {ε α : Type} {lib : MLLib ε} {name : String} {block : Eff ε α}
    {σ σ' : World} {a : α} (h : block (tick σ) = (.ok a, σ')) :
    timed lib name block σ =
      (.ok a, { tick σ' with printed := σ'.printed
        ++ [Line.timedLine name (lib.clock σ'.ticks - lib.clock σ.ticks)] }) := by
  simp only [timed, h]

/-! ## Call-trace contracts

`LogsCall op ev` is the instrumentation contract for one external operation:
whether it succeeds or raises, it appends exactly its own event to the
delegated-call trace.  `AppendsEvs op L` says a computation extends the trace
by exactly `L` when it completes normally. -/

def LogsCall {ε α : Type} (op : Eff ε α) (ev : CallEv) : Prop :=
  ∀ σ : World, ((op σ).2).calls = σ.calls ++ [ev]

def AppendsEvs {ε α : Type} (op : Eff ε α) (L : List CallEv) : Prop :=
  ∀ (σ : World) (a : α) (σ' : World), op σ = (.ok a, σ') → σ'.calls = σ.calls ++ L

theorem appendsEvs_of_logs {ε α : Type} {op : Eff ε α} {ev : CallEv}
    (h : LogsCall op ev) : AppendsEvs op [ev] := by
  intro σ a σ' hop
  have := h σ
  rw [hop] at this
  exact this

theorem appendsEvs_pureE {ε α : Type} (a : α) : AppendsEvs (ε := ε) (pureE a) [] := by
  intro σ b σ' h
  simp only [pureE] at h
  cases h
  simp

theorem appendsEvs_printL {ε : Type} (l : Line) : AppendsEvs (ε := ε) (printL l) [] := by
  intro σ b σ' h
  simp only [printL] at h
  cases h
  simp

theorem appendsEvs_bindE {ε α β : Type} {m : Eff ε α} {k : α → Eff ε β}
    {L M : List CallEv} (hm : AppendsEvs m L) (hk : ∀ a, AppendsEvs (k a) M) :
    AppendsEvs (bindE m k) (L ++ M) := by
  intro σ b σ' h
  simp only [bindE] at h
  cases hmσ : m σ with
  | mk r σ₁ =>
    rw [hmσ] at h
    cases r with
    | error e => cases h
    | ok a =>
      have h₁ := hm σ a σ₁ hmσ
      have h₂ := (hk a) σ₁ b σ' h
      rw [h₂, h₁, List.append_assoc]

/-- Every external-library operation appends exactly its own event to the
delegated-call trace: the instrumentation contract under which the wrappers'
call sequences are read off. -/
structure CallLogging {ε : Type} (lib : MLLib ε) : Prop where
  read_log : ∀ p, LogsCall (lib.read_parquet p) (.read_parquet p)
  drop_log : ∀ r s, LogsCall (lib.drop_col r s) (.drop_col s)
  astype_log : ∀ r s, LogsCall (lib.col_astype r s) (.col_astype s)
  split_log : ∀ X y rs, LogsCall (lib.train_test_split X y rs) (.train_test_split rs)
  fit_log : ∀ cl Xt yt, LogsCall (lib.rf_fit cl Xt yt) .rf_fit
  predict_log : ∀ m Xv, LogsCall (lib.rf_predict m Xv) .rf_predict
  acc_log : ∀ a b, LogsCall (lib.accuracy_score a b) .accuracy_score
  from_cudf_log : ∀ r np, LogsCall (lib.from_cudf r np) (.from_cudf np)
  persist_log : ∀ c q ws, LogsCall (lib.persist_across_workers c q ws) .persist_across_workers
  dfit_log : ∀ cl a b, LogsCall (lib.dask_rf_fit cl a b) .dask_rf_fit
  dpredict_log : ∀ m a, LogsCall (lib.dask_rf_predict m a) .dask_rf_predict
  compute_log : ∀ r, LogsCall (lib.dask_compute r) .dask_compute
  start_run_log : ∀ s, LogsCall (lib.mlflow_start_run s) (.mlflow_start_run s)
  log_params_log : ∀ ps, LogsCall (lib.mlflow_log_params ps) .mlflow_log_params
  log_metrics_log : ∀ v, LogsCall (lib.mlflow_log_metrics v) .mlflow_log_metrics
  backend_log : ∀ b n, LogsCall (lib.parallel_backend b n) (.parallel_backend b n)

/-! ## Heap contracts -/

/-- Lookup of a frame object on the heap. -/
def lookupH : List (Ref × Frame) → Ref → Option Frame
  | [], _ => none
  | (r, f) :: rest, r' => if r' = r then some f else lookupH rest r'

/-- `HeapExt σ σ'`: every frame object present in `σ` is still present, with
identical contents, in `σ'` (new objects may have been allocated). -/
def HeapExt (σ σ' : World) : Prop :=
  ∀ r v, lookupH σ.heap r = some v → lookupH σ'.heap r = some v

theorem heapExt_refl (σ : World) : HeapExt σ σ := fun _ _ h => h

theorem heapExt_trans {σ₁ σ₂ σ₃ : World} (h₁ : HeapExt σ₁ σ₂) (h₂ : HeapExt σ₂ σ₃) :
    HeapExt σ₁ σ₃ := fun r v h => h₂ r v (h₁ r v h)

theorem heapExt_of_heap_eq {σ σ' : World} (h : σ'.heap = σ.heap) : HeapExt σ σ' := by
  intro r v hv
  rw [h]
  exact hv

/-- A computation never mutates or drops a frame already on the heap, whether
it succeeds or raises. -/
def PreservesHeap {ε α : Type} (op : Eff ε α) : Prop :=
  ∀ σ : World, HeapExt σ (op σ).2

theorem preservesHeap_pureE {ε α : Type} (a : α) : PreservesHeap (ε := ε) (pureE a) :=
  fun σ => heapExt_refl σ

theorem preservesHeap_printL {ε : Type} (l : Line) : PreservesHeap (ε := ε) (printL l) :=
  fun _ => heapExt_of_heap_eq rfl

theorem preservesHeap_bindE {ε α β : Type} {m : Eff ε α} {k : α → Eff ε β}
    (hm : PreservesHeap m) (hk : ∀ a, PreservesHeap (k a)) :
    PreservesHeap (bindE m k) := by
  intro σ
  simp only [bindE]
  cases hmσ : m σ with
  | mk r σ₁ =>
    have h₁ : HeapExt σ σ₁ := by
      have := hm σ
      rw [hmσ] at this
      exact this
    cases r with
    | error e => exact h₁
    | ok a => exact heapExt_trans h₁ (hk a σ₁)

theorem preservesHeap_timed {ε α : Type} (lib : MLLib ε) (name : String)
    {block : Eff ε α} (hb : PreservesHeap block) :
    PreservesHeap (timed lib name block) := by
  intro σ
  simp only [timed]
  have h₀ : HeapExt σ (tick σ) := heapExt_of_heap_eq rfl
  cases hbσ : block (tick σ) with
  | mk r σ₁ =>
    have h₁ : HeapExt (tick σ) σ₁ := by
      have := hb (tick σ)
      rw [hbσ] at this
      exact this
    cases r with
    | error e => exact heapExt_trans h₀ h₁
    | ok a => exact heapExt_trans h₀ (heapExt_trans h₁ (heapExt_of_heap_eq rfl))

/-- Every external-library operation leaves the frames it receives untouched
on the heap (it may allocate new objects): the "frames passed unchanged into
library calls" contract. -/
structure HeapMono {ε : Type} (lib : MLLib ε) : Prop where
  read_heap : ∀ p, PreservesHeap (lib.read_parquet p)
  drop_heap : ∀ r s, PreservesHeap (lib.drop_col r s)
  astype_heap : ∀ r s, PreservesHeap (lib.col_astype r s)
  split_heap : ∀ X y rs, PreservesHeap (lib.train_test_split X y rs)
  fit_heap : ∀ cl Xt yt, PreservesHeap (lib.rf_fit cl Xt yt)
  predict_heap : ∀ m Xv, PreservesHeap (lib.rf_predict m Xv)
  acc_heap : ∀ a b, PreservesHeap (lib.accuracy_score a b)
  from_cudf_heap : ∀ r np, PreservesHeap (lib.from_cudf r np)
  persist_heap : ∀ c q ws, PreservesHeap (lib.persist_across_workers c q ws)
  dfit_heap : ∀ cl a b, PreservesHeap (lib.dask_rf_fit cl a b)
  dpredict_heap : ∀ m a, PreservesHeap (lib.dask_rf_predict m a)
  compute_heap : ∀ r, PreservesHeap (lib.dask_compute r)
  start_run_heap : ∀ s, PreservesHeap (lib.mlflow_start_run s)
  log_params_heap : ∀ ps, PreservesHeap (lib.mlflow_log_params ps)
  log_metrics_heap : ∀ v, PreservesHeap (lib.mlflow_log_metrics v)
  backend_heap : ∀ b n, PreservesHeap (lib.parallel_backend b n)

/-! ## Determinism contracts -/

/-- The outcome value of a computation does not depend on the ambient state:
two runs from any two states return the same `Except` value. -/
def ValueDet {ε α : Type} (op : Eff ε α) : Prop :=
  ∀ σ σ' : World, (op σ).1 = (op σ').1

theorem valueDet_pureE {ε α : Type} (a : α) : ValueDet (ε := ε) (pureE a) :=
  fun _ _ => rfl

theorem valueDet_bindE {ε α β : Type} {m : Eff ε α} {k : α → Eff ε β}
    (hm : ValueDet m) (hk : ∀ a, ValueDet (k a)) : ValueDet (bindE m k) := by
  intro σ σ'
  simp only [bindE]
  have h := hm σ σ'
  cases h₁ : m σ with
  | mk r₁ τ₁ =>
    cases h₂ : m σ' with
    | mk r₂ τ₂ =>
      rw [h₁, h₂] at h
      simp only at h
      subst h
      cases r₁ with
      | error e => rfl
      | ok a => exact hk a τ₁ τ₂

/-- The split, fit, predict and score operations of the single-GPU pipeline
are deterministic in the ambient state: with the seed fixed, two runs on the
same arguments return the same values (cuml's documented behaviour for
`train_test_split(random_state=77)`, and the model determinism granted by the
spec for the remaining calls). -/
structure DetLib {ε : Type} (lib : MLLib ε) : Prop where
  split_det : ∀ X y rs, ValueDet (lib.train_test_split X y rs)
  fit_det : ∀ cl Xt yt, ValueDet (lib.rf_fit cl Xt yt)
  predict_det : ∀ m Xv, ValueDet (lib.rf_predict m Xv)
  acc_det : ∀ a b, ValueDet (lib.accuracy_score a b)

/-! ## Derived facts about the wrappers -/

theorem train_and_eval_evs {ε : Type} {lib : MLLib ε} (hl : CallLogging lib)
    (X y : Ref) (md ne : Int) :
    AppendsEvs (train_and_eval lib X y md ne)
      [CallEv.train_test_split 77, CallEv.rf_fit, CallEv.rf_predict,
        CallEv.accuracy_score] := by
  have h : AppendsEvs (train_and_eval lib X y md ne)
      ([CallEv.train_test_split 77] ++ ([CallEv.rf_fit] ++ ([CallEv.rf_predict]
        ++ [CallEv.accuracy_score]))) := by
    simp only [train_and_eval]
    refine appendsEvs_bindE (appendsEvs_of_logs (hl.split_log X y 77)) ?_
    rintro ⟨Xt, Xv, yt, yv⟩
    refine appendsEvs_bindE (appendsEvs_of_logs (hl.fit_log _ _ _)) ?_
    intro fitted
    refine appendsEvs_bindE (appendsEvs_of_logs (hl.predict_log _ _)) ?_
    intro y_pred
    have hacc := appendsEvs_of_logs (hl.acc_log yv y_pred)
    simpa using hacc
  simpa using h

theorem objective_evs {ε : Type} {lib : MLLib ε} (hl : CallLogging lib)
    (t : Trial) (X y : Ref) :
    AppendsEvs (objective lib t X y)
      [CallEv.train_test_split 77, CallEv.rf_fit, CallEv.rf_predict,
        CallEv.accuracy_score] := by
  simp only [objective]
  exact train_and_eval_evs hl X y _ _

theorem seq_call_evs {ε : Type} {lib : MLLib ε} (hl : CallLogging lib)
    (X y : Ref) (md ne : Int) :
    AppendsEvs (seq_call lib X y md ne)
      [CallEv.train_test_split 77, CallEv.rf_fit, CallEv.rf_predict,
        CallEv.accuracy_score] := by
  have h : AppendsEvs (seq_call lib X y md ne)
      ([CallEv.train_test_split 77, CallEv.rf_fit, CallEv.rf_predict,
        CallEv.accuracy_score] ++ []) := by
    simp only [seq_call]
    exact appendsEvs_bindE (train_and_eval_evs hl X y md ne)
      (fun s => appendsEvs_pureE _)
  simpa using h

theorem objective_mg_evs {ε : Type} {lib : MLLib ε} (hl : CallLogging lib)
    (c : Client) (ws : List Nat) (t : Trial) (X y : Ref) :
    AppendsEvs (objective_mg lib c ws t X y)
      [CallEv.train_test_split 77, CallEv.from_cudf 2, CallEv.from_cudf 2,
        CallEv.from_cudf 2, CallEv.from_cudf 2, CallEv.persist_across_workers,
        CallEv.dask_rf_fit, CallEv.dask_rf_predict, CallEv.dask_compute,
        CallEv.accuracy_score] := by
  have h : AppendsEvs (objective_mg lib c ws t X y)
      ([CallEv.train_test_split 77] ++ ([CallEv.from_cudf 2] ++ ([CallEv.from_cudf 2]
        ++ ([CallEv.from_cudf 2] ++ ([CallEv.from_cudf 2]
        ++ ([CallEv.persist_across_workers] ++ ([CallEv.dask_rf_fit]
        ++ ([CallEv.dask_rf_predict] ++ ([CallEv.dask_compute]
        ++ [CallEv.accuracy_score]))))))))) := by
    simp only [objective_mg]
    refine appendsEvs_bindE (appendsEvs_of_logs (hl.split_log X y 77)) ?_
    rintro ⟨Xt, Xv, yt, yv⟩
    refine appendsEvs_bindE (appendsEvs_of_logs (hl.from_cudf_log _ 2)) ?_
    intro Xtd
    refine appendsEvs_bindE (appendsEvs_of_logs (hl.from_cudf_log _ 2)) ?_
    intro Xvd
    refine appendsEvs_bindE (appendsEvs_of_logs (hl.from_cudf_log _ 2)) ?_
    intro ytd
    refine appendsEvs_bindE (appendsEvs_of_logs (hl.from_cudf_log _ 2)) ?_
    intro yvd
    refine appendsEvs_bindE (appendsEvs_of_logs (hl.persist_log _ _ _)) ?_
    rintro ⟨a, b, d, e⟩
    refine appendsEvs_bindE (appendsEvs_of_logs (hl.dfit_log _ _ _)) ?_
    intro fitted
    refine appendsEvs_bindE (appendsEvs_of_logs (hl.dpredict_log _ _)) ?_
    intro y_pred
    refine appendsEvs_bindE (appendsEvs_of_logs (hl.compute_log _)) ?_
    intro computed
    have hacc := appendsEvs_of_logs (hl.acc_log yv computed)
    simpa using hacc
  simpa using h

theorem mlflow_callback_evs {ε : Type} {lib : MLLib ε} (hl : CallLogging lib)
    (study : StudyState) (trial : TrialRecord) :
    AppendsEvs (mlflow_callback lib study trial)
      [CallEv.mlflow_start_run study.study_name, CallEv.mlflow_log_params,
        CallEv.mlflow_log_metrics] := by
  have h : AppendsEvs (mlflow_callback lib study trial)
      ([CallEv.mlflow_start_run study.study_name] ++ ([]
        ++ ([CallEv.mlflow_log_params] ++ [CallEv.mlflow_log_metrics]))) := by
    simp only [mlflow_callback]
    refine appendsEvs_bindE (appendsEvs_of_logs (hl.start_run_log _)) ?_
    intro u
    refine appendsEvs_bindE (appendsEvs_printL _) ?_
    intro u'
    refine appendsEvs_bindE (appendsEvs_of_logs (hl.log_params_log _)) ?_
    intro u''
    exact appendsEvs_of_logs (hl.log_metrics_log _)
  simpa using h

theorem train_and_eval_heap {ε : Type} {lib : MLLib ε} (hp : HeapMono lib)
    (X y : Ref) (md ne : Int) : PreservesHeap (train_and_eval lib X y md ne) := by
  simp only [train_and_eval]
  refine preservesHeap_bindE (hp.split_heap X y 77) ?_
  rintro ⟨Xt, Xv, yt, yv⟩
  refine preservesHeap_bindE (hp.fit_heap _ _ _) ?_
  intro fitted
  refine preservesHeap_bindE (hp.predict_heap _ _) ?_
  intro y_pred
  exact hp.acc_heap _ _

theorem objective_heap {ε : Type} {lib : MLLib ε} (hp : HeapMono lib)
    (t : Trial) (X y : Ref) : PreservesHeap (objective lib t X y) := by
  simp only [objective]
  exact train_and_eval_heap hp X y _ _

theorem seq_call_heap {ε : Type} {lib : MLLib ε} (hp : HeapMono lib)
    (X y : Ref) (md ne : Int) : PreservesHeap (seq_call lib X y md ne) := by
  simp only [seq_call]
  exact preservesHeap_bindE (train_and_eval_heap hp X y md ne)
    (fun s => preservesHeap_pureE _)

theorem objective_mg_heap {ε : Type} {lib : MLLib ε} (hp : HeapMono lib)
    (c : Client) (ws : List Nat) (t : Trial) (X y : Ref) :
    PreservesHeap (objective_mg lib c ws t X y) := by
  simp only [objective_mg]
  refine preservesHeap_bindE (hp.split_heap X y 77) ?_
  rintro ⟨Xt, Xv, yt, yv⟩
  refine preservesHeap_bindE (hp.from_cudf_heap _ 2) ?_
  intro Xtd
  refine preservesHeap_bindE (hp.from_cudf_heap _ 2) ?_
  intro Xvd
  refine preservesHeap_bindE (hp.from_cudf_heap _ 2) ?_
  intro ytd
  refine preservesHeap_bindE (hp.from_cudf_heap _ 2) ?_
  intro yvd
  refine preservesHeap_bindE (hp.persist_heap _ _ _) ?_
  rintro ⟨a, b, d, e⟩
  refine preservesHeap_bindE (hp.dfit_heap _ _ _) ?_
  intro fitted
  refine preservesHeap_bindE (hp.dpredict_heap _ _) ?_
  intro y_pred
  refine preservesHeap_bindE (hp.compute_heap _) ?_
  intro computed
  exact hp.acc_heap _ _

theorem mlflow_callback_heap {ε : Type} {lib : MLLib ε} (hp : HeapMono lib)
    (study : StudyState) (trial : TrialRecord) :
    PreservesHeap (mlflow_callback lib study trial) := by
  simp only [mlflow_callback]
  refine preservesHeap_bindE (hp.start_run_heap _) ?_
  intro u
  refine preservesHeap_bindE (preservesHeap_printL _) ?_
  intro u'
  refine preservesHeap_bindE (hp.log_params_heap _) ?_
  intro u''
  exact hp.log_metrics_heap _

theorem runCallbacks_heap {ε : Type}
    {cbs : List (StudyState → TrialRecord → Eff ε Unit)}
    (hcb : ∀ cb ∈ cbs, ∀ s tr, PreservesHeap (cb s tr))
    (study : StudyState) (tr : TrialRecord) :
    PreservesHeap (runCallbacks cbs study tr) := by
  induction cbs with
  | nil => exact preservesHeap_pureE _
  | cons cb rest ih =>
    simp only [runCallbacks]
    refine preservesHeap_bindE (hcb cb (by simp) study tr) ?_
    intro u
    exact ih (fun cb' h s t => hcb cb' (by simp [h]) s t)

theorem optimize_heap {ε : Type} {f : Trial → Eff ε Score} {ts : List Trial}
    {nj : Option Nat} {cbs : List (StudyState → TrialRecord → Eff ε Unit)}
    (hf : ∀ t, PreservesHeap (f t))
    (hcb : ∀ cb ∈ cbs, ∀ s tr, PreservesHeap (cb s tr))
    (study : StudyState) : PreservesHeap (optimize f ts nj cbs study) := by
  induction ts generalizing study with
  | nil => exact preservesHeap_pureE _
  | cons t rest ih =>
    simp only [optimize]
    refine preservesHeap_bindE (hf t) ?_
    intro v
    refine preservesHeap_bindE (runCallbacks_heap hcb _ _) ?_
    intro u
    exact ih _

theorem run_study_heap {ε : Type} {lib : MLLib ε} (hp : HeapMono lib)
    (c : Client) (X y : Ref) (ts : List Trial) (prior : List TrialRecord)
    (sampler study_name : String)
    (callbacks : List (StudyState → TrialRecord → Eff ε Unit))
    (hcb : ∀ cb ∈ callbacks, ∀ s tr, PreservesHeap (cb s tr)) :
    PreservesHeap (run_study lib c X y ts prior sampler study_name callbacks) := by
  have hblock : PreservesHeap (ε := ε) (fun σ₀ =>
      let study := create_study sampler study_name
        ("sqlite:///_" ++ study_name ++ ".db") Direction.maximize true prior
      bindE (lib.parallel_backend "dask" (n_workers c))
        (fun _ => optimize (fun t => objective lib t X y) ts (some (n_workers c))
          callbacks study) σ₀) := by
    refine preservesHeap_bindE (hp.backend_heap _ _) ?_
    intro u
    exact optimize_heap (fun t => objective_heap hp t X y) hcb _
  intro σ
  simp only [run_study]
  cases ht : timed lib study_name _ σ with
  | mk r σ₁ =>
    have h₁ : HeapExt σ σ₁ := by
      have := preservesHeap_timed lib study_name hblock σ
      rw [ht] at this
      exact this
    cases r with
    | error e => exact h₁
    | ok study =>
      refine heapExt_trans h₁ (heapExt_of_heap_eq ?_)
      rcases hbt : best_trial study.trials with _ | tr <;> simp [hbt]

/-! ## Facts about `best_trial` and `optimize` -/

theorem ovle_refl (a : Option Score) : ovle a a = true := by
  cases a with
  | none => rfl
  | some s => simp [ovle]

theorem ovle_total (a b : Option Score) : ovle a b = true ∨ ovle b a = true := by
  cases a with
  | none => exact Or.inl rfl
  | some x =>
    cases b with
    | none => exact Or.inr rfl
    | some y =>
      rcases Int.le_total x y with h | h
      · exact Or.inl (by simp [ovle, h])
      · exact Or.inr (by simp [ovle, h])

theorem ovle_trans {a b c : Option Score} (h₁ : ovle a b = true)
    (h₂ : ovle b c = true) : ovle a c = true := by
  cases a with
  | none => rfl
  | some x =>
    cases b with
    | none => simp [ovle] at h₁
    | some y =>
      cases c with
      | none => simp [ovle] at h₂
      | some z =>
        simp only [ovle] at h₁ h₂
        simp only [ovle]
        rw [decide_eq_true_eq] at h₁ h₂
        rw [decide_eq_true_eq]
        exact le_trans h₁ h₂

theorem foldl_pickBetter_spec (l : List TrialRecord) (t : TrialRecord) :
    (l.foldl pickBetter t = t ∨ l.foldl pickBetter t ∈ l) ∧
    ovle t.value (l.foldl pickBetter t).value = true ∧
    ∀ u ∈ l, ovle u.value (l.foldl pickBetter t).value = true := by
  induction l generalizing t with
  | nil => exact ⟨Or.inl rfl, ovle_refl _, by simp⟩
  | cons u rest ih =>
    have hstep : List.foldl pickBetter t (u :: rest) =
        List.foldl pickBetter (pickBetter t u) rest := rfl
    obtain ⟨hmem, hge, hall⟩ := ih (pickBetter t u)
    have hpt : ovle t.value (pickBetter t u).value = true := by
      by_cases h : ovle t.value u.value = true
      · simp [pickBetter, h]
      · simp [pickBetter, h, ovle_refl]
    have hpu : ovle u.value (pickBetter t u).value = true := by
      by_cases h : ovle t.value u.value = true
      · simp [pickBetter, h, ovle_refl]
      · rcases ovle_total t.value u.value with h' | h'
        · exact absurd h' h
        · simpa [pickBetter, h] using h'
    refine ⟨?_, ?_, ?_⟩
    · rw [hstep]
      rcases hmem with h | h
      · rw [h]
        by_cases hc : ovle t.value u.value = true
        · right
          simp [pickBetter, hc]
        · left
          simp [pickBetter, hc]
      · right
        exact List.mem_cons_of_mem _ h
    · rw [hstep]
      exact ovle_trans hpt hge
    · intro w hw
      rw [hstep]
      rcases List.mem_cons.mp hw with h | h
      · subst h
        exact ovle_trans hpu hge
      · exact hall w h

theorem best_trial_mem {l : List TrialRecord} {b : TrialRecord}
    (h : best_trial l = some b) : b ∈ l := by
  cases l with
  | nil => simp [best_trial] at h
  | cons t ts =>
    simp only [best_trial, Option.some.injEq] at h
    subst h
    rcases (foldl_pickBetter_spec ts t).1 with h | h
    · rw [h]
      exact List.mem_cons_self _ _
    · exact List.mem_cons_of_mem _ h

theorem best_trial_ge {l : List TrialRecord} {b : TrialRecord}
    (h : best_trial l = some b) : ∀ u ∈ l, ovle u.value b.value = true := by
  cases l with
  | nil => simp [best_trial] at h
  | cons t ts =>
    simp only [best_trial, Option.some.injEq] at h
    subst h
    intro u hu
    rcases List.mem_cons.mp hu with h | h
    · subst h
      exact (foldl_pickBetter_spec ts u).2.1
    · exact (foldl_pickBetter_spec ts t).2.2 u h

theorem best_trial_isSome {l : List TrialRecord} (h : l ≠ []) :
    ∃ b, best_trial l = some b := by
  cases l with
  | nil => exact absurd rfl h
  | cons t ts => exact ⟨_, rfl⟩

/-- On a successful run, `optimize` returns the same study extended by exactly
one finished record per proposed trial, leaving every other field unchanged. -/
theorem optimize_ok_shape {ε : Type} {f : Trial → Eff ε Score} {ts : List Trial}
    {nj : Option Nat} {cbs : List (StudyState → TrialRecord → Eff ε Unit)}
    {s s' : StudyState} {σ σ' : World}
    (h : optimize f ts nj cbs s σ = (.ok s', σ')) :
    ∃ new : List TrialRecord,
      s' = { s with trials := s.trials ++ new } ∧ new.length = ts.length := by
  induction ts generalizing s σ with
  | nil =>
    simp only [optimize, pureE, Prod.mk.injEq] at h
    obtain ⟨h₁, _⟩ := h
    cases h₁
    exact ⟨[], by simp, rfl⟩
  | cons t rest ih =>
    simp only [optimize, bindE] at h
    cases hft : f t σ with
    | mk r σ₁ =>
      rw [hft] at h
      cases r with
      | error e => simp at h
      | ok v =>
        simp only at h
        cases hcb : runCallbacks cbs
            { s with trials := s.trials ++ [⟨t.params, some v⟩] }
            ⟨t.params, some v⟩ σ₁ with
        | mk rc σ₂ =>
          rw [hcb] at h
          cases rc with
          | error e => simp at h
          | ok u =>
            simp only at h
            obtain ⟨new, hnew, hlen⟩ := ih h
            refine ⟨⟨t.params, some v⟩ :: new, ?_, by simp [hlen]⟩
            rw [hnew]
            simp

/-! ## Call-trace monotonicity and prefix lemmas -/

/-- A computation only ever appends to the delegated-call trace. -/
def CallsMonotone {ε α : Type} (op : Eff ε α) : Prop :=
  ∀ σ : World, ∃ ext, ((op σ).2).calls = σ.calls ++ ext

theorem callsMonotone_of_logs {ε α : Type} {op : Eff ε α} {ev : CallEv}
    (h : LogsCall op ev) : CallsMonotone op :=
  fun σ => ⟨[ev], h σ⟩

theorem callsMonotone_pureE {ε α : Type} (a : α) : CallsMonotone (ε := ε) (pureE a) :=
  fun σ => ⟨[], by simp [pureE]⟩

theorem callsMonotone_printL {ε : Type} (l : Line) : CallsMonotone (ε := ε) (printL l) :=
  fun σ => ⟨[], by simp [printL]⟩

theorem callsMonotone_bindE {ε α β : Type} {m : Eff ε α} {k : α → Eff ε β}
    (hm : CallsMonotone m) (hk : ∀ a, CallsMonotone (k a)) :
    CallsMonotone (bindE m k) := by
  intro σ
  simp only [bindE]
  cases hmσ : m σ with
  | mk r σ₁ =>
    obtain ⟨ext₁, h₁⟩ := hm σ
    rw [hmσ] at h₁
    cases r with
    | error e => exact ⟨ext₁, h₁⟩
    | ok a =>
      obtain ⟨ext₂, h₂⟩ := hk a σ₁
      exact ⟨ext₁ ++ ext₂, by rw [h₂, h₁, List.append_assoc]⟩

/-- `timed` adds no delegated calls of its own: the final trace is exactly the
trace left by the enclosed block. -/
theorem timed_calls {ε α : Type} (lib : MLLib ε) (name : String) (block : Eff ε α)
    (σ : World) :
    ((timed lib name block σ).2).calls = ((block (tick σ)).2).calls := by
  cases hb : block (tick σ) with
  | mk r σ₁ =>
    cases r with
    | error e => simp [timed, hb]
    | ok a =>
      simp only [timed, hb]
      rfl

/-- If the first step of a sequence logs `ev` and the continuation only appends
to the trace, then the whole sequence leaves `ev` right after the initial trace,
whether or not it raises. -/
theorem bindE_calls_prefix {ε α β : Type} {m : Eff ε α} {k : α → Eff ε β}
    {ev : CallEv} (hm : LogsCall m ev) (hk : ∀ a, CallsMonotone (k a)) :
    ∀ σ, ∃ rest, ((bindE m k σ).2).calls = σ.calls ++ ev :: rest := by
  intro σ
  simp only [bindE]
  cases hmσ : m σ with
  | mk r σ₁ =>
    have h₁ := hm σ
    rw [hmσ] at h₁
    cases r with
    | error e => exact ⟨[], h₁⟩
    | ok a =>
      obtain ⟨ext, h₂⟩ := hk a σ₁
      refine ⟨ext, ?_⟩
      rw [h₂, h₁]
      simp

theorem callsMonotone_train_and_eval {ε : Type} {lib : MLLib ε}
    (hl : CallLogging lib) (X y : Ref) (md ne : Int) :
    CallsMonotone (train_and_eval lib X y md ne) := by
  simp only [train_and_eval]
  refine callsMonotone_bindE (callsMonotone_of_logs (hl.split_log X y 77)) ?_
  rintro ⟨Xt, Xv, yt, yv⟩
  refine callsMonotone_bindE (callsMonotone_of_logs (hl.fit_log _ _ _)) ?_
  intro fitted
  refine callsMonotone_bindE (callsMonotone_of_logs (hl.predict_log _ _)) ?_
  intro y_pred
  exact callsMonotone_of_logs (hl.acc_log _ _)

theorem callsMonotone_objective {ε : Type} {lib : MLLib ε}
    (hl : CallLogging lib) (t : Trial) (X y : Ref) :
    CallsMonotone (objective lib t X y) := by
  simp only [objective]
  exact callsMonotone_train_and_eval hl X y _ _

theorem callsMonotone_objective_mg {ε : Type} {lib : MLLib ε}
    (hl : CallLogging lib) (c : Client) (ws : List Nat) (t : Trial) (X y : Ref) :
    CallsMonotone (objective_mg lib c ws t X y) := by
  simp only [objective_mg]
  refine callsMonotone_bindE (callsMonotone_of_logs (hl.split_log X y 77)) ?_
  rintro ⟨Xt, Xv, yt, yv⟩
  refine callsMonotone_bindE (callsMonotone_of_logs (hl.from_cudf_log _ 2)) ?_
  intro Xtd
  refine callsMonotone_bindE (callsMonotone_of_logs (hl.from_cudf_log _ 2)) ?_
  intro Xvd
  refine callsMonotone_bindE (callsMonotone_of_logs (hl.from_cudf_log _ 2)) ?_
  intro ytd
  refine callsMonotone_bindE (callsMonotone_of_logs (hl.from_cudf_log _ 2)) ?_
  intro yvd
  refine callsMonotone_bindE (callsMonotone_of_logs (hl.persist_log _ _ _)) ?_
  rintro ⟨a, b, d, e⟩
  refine callsMonotone_bindE (callsMonotone_of_logs (hl.dfit_log _ _ _)) ?_
  intro fitted
  refine callsMonotone_bindE (callsMonotone_of_logs (hl.dpredict_log _ _)) ?_
  intro y_pred
  refine callsMonotone_bindE (callsMonotone_of_logs (hl.compute_log _)) ?_
  intro computed
  exact callsMonotone_of_logs (hl.acc_log _ _)

theorem callsMonotone_runCallbacks {ε : Type}
    {cbs : List (StudyState → TrialRecord → Eff ε Unit)}
    (hcb : ∀ cb ∈ cbs, ∀ s tr, CallsMonotone (cb s tr))
    (study : StudyState) (tr : TrialRecord) :
    CallsMonotone (runCallbacks cbs study tr) := by
  induction cbs with
  | nil => exact callsMonotone_pureE _
  | cons cb rest ih =>
    simp only [runCallbacks]
    refine callsMonotone_bindE (hcb cb (by simp) study tr) ?_
    intro u
    exact ih (fun cb' h s t => hcb cb' (by simp [h]) s t)

theorem callsMonotone_optimize {ε : Type} {f : Trial → Eff ε Score}
    {ts : List Trial} {nj : Option Nat}
    {cbs : List (StudyState → TrialRecord → Eff ε Unit)}
    (hf : ∀ t, CallsMonotone (f t))
    (hcb : ∀ cb ∈ cbs, ∀ s tr, CallsMonotone (cb s tr))
    (study : StudyState) : CallsMonotone (optimize f ts nj cbs study) := by
  induction ts generalizing study with
  | nil => exact callsMonotone_pureE _
  | cons t rest ih =>
    simp only [optimize]
    refine callsMonotone_bindE (hf t) ?_
    intro v
    refine callsMonotone_bindE (callsMonotone_runCallbacks hcb _ _) ?_
    intro u
    exact ih _

/-- `run_study` adds no delegated calls after the timed block: the final trace
is the trace left by the block. -/
theorem run_study_calls {ε : Type} (lib : MLLib ε) (c : Client) (X y : Ref)
    (ts : List Trial) (prior : List TrialRecord) (sampler study_name : String)
    (callbacks : List (StudyState → TrialRecord → Eff ε Unit)) (σ : World) :
    ((run_study lib c X y ts prior sampler study_name callbacks σ).2).calls =
      ((timed lib study_name (fun σ₀ =>
        bindE (lib.parallel_backend "dask" (n_workers c))
          (fun _ => optimize (fun t => objective lib t X y) ts (some (n_workers c))
            callbacks (create_study sampler study_name
              ("sqlite:///_" ++ study_name ++ ".db") Direction.maximize true prior))
          σ₀) σ).2).calls := by
  simp only [run_study]
  cases ht : timed lib study_name _ σ with
  | mk r σ₁ =>
    cases r with
    | error e => rfl
    | ok study =>
      rcases hbt : best_trial study.trials with _ | tr <;> simp [hbt]

theorem valueDet_train_and_eval {ε : Type} {lib : MLLib ε} (hd : DetLib lib)
    (X y : Ref) (md ne : Int) : ValueDet (train_and_eval lib X y md ne) := by
  simp only [train_and_eval]
  refine valueDet_bindE (hd.split_det X y 77) ?_
  rintro ⟨Xt, Xv, yt, yv⟩
  refine valueDet_bindE (hd.fit_det _ _ _) ?_
  intro fitted
  refine valueDet_bindE (hd.predict_det _ _) ?_
  intro y_pred
  exact hd.acc_det _ _

/-! ## Concrete instances used by the witnesses -/

/-- Append one call event to the trace, leaving the rest of the world alone. -/
def logOnly (ev : CallEv) (σ : World) : World :=
  { σ with calls := σ.calls ++ [ev] }

/-- A concrete, fully successful library: every operation returns a fixed
value, logs its event, and leaves heap and printing alone. -/
def okLib : MLLib Unit where
  clock := fun t => Int.ofNat t
  read_parquet := fun p σ => (.ok 100, logOnly (.read_parquet p) σ)
  drop_col := fun r s σ => (.ok (r + 1), logOnly (.drop_col s) σ)
  col_astype := fun r s σ => (.ok (r + 2), logOnly (.col_astype s) σ)
  train_test_split := fun X y rs σ =>
    (.ok (X + 10, X + 11, y + 10, y + 11), logOnly (.train_test_split rs) σ)
  rf_fit := fun _ _ _ σ => (.ok 7, logOnly .rf_fit σ)
  rf_predict := fun _ Xv σ => (.ok (Xv + 1), logOnly .rf_predict σ)
  accuracy_score := fun _ _ σ => (.ok 42, logOnly .accuracy_score σ)
  from_cudf := fun r np σ => (.ok (r + 20), logOnly (.from_cudf np) σ)
  persist_across_workers := fun _ q _ σ => (.ok q, logOnly .persist_across_workers σ)
  dask_rf_fit := fun _ _ _ σ => (.ok 8, logOnly .dask_rf_fit σ)
  dask_rf_predict := fun _ a σ => (.ok (a + 1), logOnly .dask_rf_predict σ)
  dask_compute := fun r σ => (.ok (r + 1), logOnly .dask_compute σ)
  mlflow_start_run := fun s σ => (.ok (), logOnly (.mlflow_start_run s) σ)
  mlflow_log_params := fun _ σ => (.ok (), logOnly .mlflow_log_params σ)
  mlflow_log_metrics := fun _ σ => (.ok (), logOnly .mlflow_log_metrics σ)
  parallel_backend := fun b n σ => (.ok (), logOnly (.parallel_backend b n) σ)
  empty_study_error := ()

theorem okLib_logs : CallLogging okLib := by
  constructor <;> intros <;> exact fun σ => rfl

theorem okLib_heap : HeapMono okLib := by
  constructor <;> intros <;> exact fun σ => heapExt_of_heap_eq rfl

theorem okLib_det : DetLib okLib := by
  constructor <;> intros <;> exact fun σ σ' => rfl

/-- Like `okLib`, but `classifier.fit` raises (the out-of-memory failure mode
the notebook's own notes mention). -/
def errLib : MLLib Unit :=
  { okLib with rf_fit := fun _ _ _ σ => (.error (), logOnly .rf_fit σ) }

/-- A concrete trial whose sampler always proposes the lower bound. -/
def loTrial : Trial :=
  { params := [("max_depth", 10), ("n_estimators", 200)]
    suggest_int := fun _ lo _ => lo }

theorem loTrial_range : SuggestInRange loTrial :=
  fun _ lo _ h => ⟨le_refl lo, h⟩

/-- A concrete starting world: `X` is object 0 and `y` is object 1. -/
def w0 : World :=
  { heap := [(0, [5]), (1, [7])], printed := [], calls := [], ticks := 0 }

/-! ## Claims -/

/-- C1: for every trial, the objective function returns exactly the value of
`train_and_eval` applied to the passed `X_param`, `y_param` with a `max_depth`
sampled from the inclusive range [10, 15] and an `n_estimators` sampled from
the inclusive range [200, 700]; beyond sampling the two integers it only
delegates (it is literally the same effectful computation). -/
theorem C1_objective_delegates {ε : Type} (lib : MLLib ε) (t : Trial)
    (X_param y_param : Ref) (ht : SuggestInRange t) :
    10 ≤ t.suggest_int "max_depth" 10 15 ∧
    t.suggest_int "max_depth" 10 15 ≤ 15 ∧
    200 ≤ t.suggest_int "n_estimators" 200 700 ∧
    t.suggest_int "n_estimators" 200 700 ≤ 700 ∧
    objective lib t X_param y_param =
      train_and_eval lib X_param y_param (t.suggest_int "max_depth" 10 15)
        (t.suggest_int "n_estimators" 200 700) := by
  obtain ⟨h₁, h₂⟩ := ht "max_depth" 10 15 (by omega)
  obtain ⟨h₃, h₄⟩ := ht "n_estimators" 200 700 (by omega)
  exact ⟨h₁, h₂, h₃, h₄, rfl⟩

/-- Witness for C1 at a concrete library, trial and inputs. -/
theorem C1_witness :
    10 ≤ loTrial.suggest_int "max_depth" 10 15 ∧
    loTrial.suggest_int "max_depth" 10 15 ≤ 15 ∧
    200 ≤ loTrial.suggest_int "n_estimators" 200 700 ∧
    loTrial.suggest_int "n_estimators" 200 700 ≤ 700 ∧
    objective okLib loTrial 0 1 =
      train_and_eval okLib 0 1 (loTrial.suggest_int "max_depth" 10 15)
        (loTrial.suggest_int "n_estimators" 200 700) :=
  C1_objective_delegates okLib loTrial 0 1 loTrial_range

/-- C7: for every `X`, `y`, `max_depth` and `n_estimators`, `seq_call` returns
exactly the triple `(train_and_eval X y max_depth n_estimators, max_depth,
n_estimators)` — the same score the optimizer's objective computes for the
same sampled parameters, with the parameters echoed alongside. -/
theorem C7_seq_call_echo {ε : Type} (lib : MLLib ε) (X y : Ref) (md ne : Int) :
    (∀ σ, (seq_call lib X y md ne σ).1 =
        ((train_and_eval lib X y md ne σ).1).map (fun s => (s, md, ne)) ∧
      (seq_call lib X y md ne σ).2 = (train_and_eval lib X y md ne σ).2) ∧
    (∀ t : Trial, t.suggest_int "max_depth" 10 15 = md →
      t.suggest_int "n_estimators" 200 700 = ne →
      objective lib t X y = train_and_eval lib X y md ne) := by
  constructor
  · intro σ
    cases h : train_and_eval lib X y md ne σ with
    | mk r σ' =>
      cases r with
      | error e => simp [seq_call, bindE, h, Except.map]
      | ok s => simp [seq_call, bindE, pureE, h, Except.map]
  · intro t h₁ h₂
    simp only [objective, h₁, h₂]

/-- Witness for C7 at a concrete library and inputs. -/
theorem C7_witness :
    ((seq_call okLib 0 1 10 200 w0).1 =
        ((train_and_eval okLib 0 1 10 200 w0).1).map (fun s => (s, 10, 200)) ∧
      (seq_call okLib 0 1 10 200 w0).2 = (train_and_eval okLib 0 1 10 200 w0).2) ∧
    objective okLib loTrial 0 1 = train_and_eval okLib 0 1 10 200 :=
  ⟨(C7_seq_call_echo okLib 0 1 10 200).1 w0,
    (C7_seq_call_echo okLib 0 1 10 200).2 loTrial rfl rfl⟩

/-- C10: the `timed` context manager prints its line only when the enclosed
block completes normally.  Because the `yield` is not wrapped in `try/finally`,
a block that raises makes `timed` propagate the exception unchanged with the
printed output exactly as the block left it (no line added); on normal
completion it returns the block's result untouched and appends exactly one
timing line. -/
theorem C10_timed_prints_only_on_success {ε α : Type} (lib : MLLib ε)
    (name : String) (block : Eff ε α) (σ : World) :
    (∀ e σ', block (tick σ) = (.error e, σ') →
      timed lib name block σ = (.error e, σ') ∧
      ((timed lib name block σ).2).printed = σ'.printed) ∧
    (∀ a σ', block (tick σ) = (.ok a, σ') →
      timed lib name block σ = (.ok a,
        { tick σ' with printed := σ'.printed
          ++ [Line.timedLine name (lib.clock σ'.ticks - lib.clock σ.ticks)] })) := by
  constructor
  · intro e σ' h
    refine ⟨timed_err h, ?_⟩
    rw [timed_err h]
  · intro a σ' h
    exact timed_ok h

/-- Witness for C10: a concrete raising block (exception propagates and the
printed log is exactly what the block left) and a concrete succeeding block
(one line appended). -/
theorem C10_witness :
    (timed okLib "job" (fun σ => ((Except.error () : Except Unit Nat), σ)) w0 =
        (.error (), tick w0) ∧
      ((timed okLib "job" (fun σ => ((Except.error () : Except Unit Nat), σ)) w0).2).printed =
        (tick w0).printed) ∧
    timed okLib "job" (fun σ => ((Except.ok 3 : Except Unit Nat), σ)) w0 = (.ok 3,
      { tick (tick w0) with printed := (tick w0).printed
        ++ [Line.timedLine "job" (okLib.clock (tick w0).ticks - okLib.clock w0.ticks)] }) :=
  ⟨(C10_timed_prints_only_on_success okLib "job"
      (fun σ => ((Except.error () : Except Unit Nat), σ)) w0).1 () (tick w0) rfl,
    (C10_timed_prints_only_on_success okLib "job"
      (fun σ => ((Except.ok 3 : Except Unit Nat), σ)) w0).2 3 (tick w0) rfl⟩

/-- C2: no function defined in the notebook (`train_and_eval`, `objective`,
`objective_mg`, `run_study`, `seq_call`, `timed`, `mlflow_callback`) catches or
suppresses an exception: whenever an underlying library call raises — at any
position in any of these functions — the same exception is the function's
outcome, with no alternative result produced. -/
theorem C2_exceptions_propagate {ε : Type} (lib : MLLib ε) :
    (∀ X y md ne σ σ' e, lib.train_test_split X y 77 σ = (.error e, σ') →
      train_and_eval lib X y md ne σ = (.error e, σ')) ∧
    (∀ X y md ne σ σ₁ Xt Xv yt yv σ' e,
      lib.train_test_split X y 77 σ = (.ok (Xt, Xv, yt, yv), σ₁) →
      lib.rf_fit { max_depth := md, n_estimators := ne } Xt yt σ₁ = (.error e, σ') →
      train_and_eval lib X y md ne σ = (.error e, σ')) ∧
    (∀ X y md ne σ σ₁ Xt Xv yt yv σ₂ fitted σ' e,
      lib.train_test_split X y 77 σ = (.ok (Xt, Xv, yt, yv), σ₁) →
      lib.rf_fit { max_depth := md, n_estimators := ne } Xt yt σ₁ = (.ok fitted, σ₂) →
      lib.rf_predict fitted Xv σ₂ = (.error e, σ') →
      train_and_eval lib X y md ne σ = (.error e, σ')) ∧
    (∀ X y md ne σ σ₁ Xt Xv yt yv σ₂ fitted σ₃ y_pred σ' e,
      lib.train_test_split X y 77 σ = (.ok (Xt, Xv, yt, yv), σ₁) →
      lib.rf_fit { max_depth := md, n_estimators := ne } Xt yt σ₁ = (.ok fitted, σ₂) →
      lib.rf_predict fitted Xv σ₂ = (.ok y_pred, σ₃) →
      lib.accuracy_score yv y_pred σ₃ = (.error e, σ') →
      train_and_eval lib X y md ne σ = (.error e, σ')) ∧
    (∀ t X y σ σ' e,
      train_and_eval lib X y (t.suggest_int "max_depth" 10 15)
        (t.suggest_int "n_estimators" 200 700) σ = (.error e, σ') →
      objective lib t X y σ = (.error e, σ')) ∧
    (∀ X y md ne σ σ' e, train_and_eval lib X y md ne σ = (.error e, σ') →
      seq_call lib X y md ne σ = (.error e, σ')) ∧
    (∀ (α : Type) (name : String) (block : Eff ε α) σ σ' e,
      block (tick σ) = (.error e, σ') → timed lib name block σ = (.error e, σ')) ∧
    (∀ s tr σ σ' e, lib.mlflow_start_run s.study_name σ = (.error e, σ') →
      mlflow_callback lib s tr σ = (.error e, σ')) ∧
    (∀ s tr σ σ₁ σ' e, lib.mlflow_start_run s.study_name σ = (.ok (), σ₁) →
      lib.mlflow_log_params tr.params
        { σ₁ with printed := σ₁.printed ++ [Line.paramsDict tr.params] } =
        (.error e, σ') →
      mlflow_callback lib s tr σ = (.error e, σ')) ∧
    (∀ s tr σ σ₁ σ₂ σ' e, lib.mlflow_start_run s.study_name σ = (.ok (), σ₁) →
      lib.mlflow_log_params tr.params
        { σ₁ with printed := σ₁.printed ++ [Line.paramsDict tr.params] } =
        (.ok (), σ₂) →
      lib.mlflow_log_metrics (mlflowMetricArg tr) σ₂ = (.error e, σ') →
      mlflow_callback lib s tr σ = (.error e, σ')) ∧
    (∀ c X y ts prior sampler nm cbs σ σ' e,
      lib.parallel_backend "dask" (n_workers c) (tick σ) = (.error e, σ') →
      run_study lib c X y ts prior sampler nm cbs σ = (.error e, σ')) ∧
    (∀ c X y ts prior sampler nm cbs σ σ₁ σ' e,
      lib.parallel_backend "dask" (n_workers c) (tick σ) = (.ok (), σ₁) →
      optimize (fun t => objective lib t X y) ts (some (n_workers c)) cbs
        (create_study sampler nm ("sqlite:///_" ++ nm ++ ".db")
          Direction.maximize true prior) σ₁ = (.error e, σ') →
      run_study lib c X y ts prior sampler nm cbs σ = (.error e, σ')) ∧
    (∀ c ws t X y σ σ' e, lib.train_test_split X y 77 σ = (.error e, σ') →
      objective_mg lib c ws t X y σ = (.error e, σ')) ∧
    (∀ c ws t X y σ σ₁ Xt Xv yt yv σ' e,
      lib.train_test_split X y 77 σ = (.ok (Xt, Xv, yt, yv), σ₁) →
      lib.from_cudf Xt 2 σ₁ = (.error e, σ') →
      objective_mg lib c ws t X y σ = (.error e, σ')) ∧
    (∀ c ws t X y σ σ₁ Xt Xv yt yv σ₂ Xtd σ₃ Xvd σ₄ ytd σ₅ yvd σ' e,
      lib.train_test_split X y 77 σ = (.ok (Xt, Xv, yt, yv), σ₁) →
      lib.from_cudf Xt 2 σ₁ = (.ok Xtd, σ₂) →
      lib.from_cudf Xv 2 σ₂ = (.ok Xvd, σ₃) →
      lib.from_cudf yt 2 σ₃ = (.ok ytd, σ₄) →
      lib.from_cudf yv 2 σ₄ = (.ok yvd, σ₅) →
      lib.persist_across_workers c (Xtd, Xvd, ytd, yvd) ws σ₅ = (.error e, σ') →
      objective_mg lib c ws t X y σ = (.error e, σ')) ∧
    (∀ c ws t X y σ σ₁ Xt Xv yt yv σ₂ Xtd σ₃ Xvd σ₄ ytd σ₅ yvd σ₆ Ptd Pvd Qtd Qvd
        σ₇ fitted σ₈ y_pred σ₉ computed σ' e,
      lib.train_test_split X y 77 σ = (.ok (Xt, Xv, yt, yv), σ₁) →
      lib.from_cudf Xt 2 σ₁ = (.ok Xtd, σ₂) →
      lib.from_cudf Xv 2 σ₂ = (.ok Xvd, σ₃) →
      lib.from_cudf yt 2 σ₃ = (.ok ytd, σ₄) →
      lib.from_cudf yv 2 σ₄ = (.ok yvd, σ₅) →
      lib.persist_across_workers c (Xtd, Xvd, ytd, yvd) ws σ₅ =
        (.ok (Ptd, Pvd, Qtd, Qvd), σ₆) →
      lib.dask_rf_fit
        { max_depth := t.suggest_int "max_depth" 10 15,
          n_estimators := t.suggest_int "n_estimators" 200 700 } Ptd Qtd σ₆ =
        (.ok fitted, σ₇) →
      lib.dask_rf_predict fitted Pvd σ₇ = (.ok y_pred, σ₈) →
      lib.dask_compute y_pred σ₈ = (.ok computed, σ₉) →
      lib.accuracy_score yv computed σ₉ = (.error e, σ') →
      objective_mg lib c ws t X y σ = (.error e, σ')) := by
  refine ⟨?_, ?_, ?_, ?_, ?_, ?_, ?_, ?_, ?_, ?_, ?_, ?_, ?_, ?_, ?_, ?_⟩
  · intro X y md ne σ σ' e h
    simp only [train_and_eval, bindE, h]
  · intro X y md ne σ σ₁ Xt Xv yt yv σ' e h₁ h₂
    simp only [train_and_eval, bindE, h₁, h₂]
  · intro X y md ne σ σ₁ Xt Xv yt yv σ₂ fitted σ' e h₁ h₂ h₃
    simp only [train_and_eval, bindE, h₁, h₂, h₃]
  · intro X y md ne σ σ₁ Xt Xv yt yv σ₂ fitted σ₃ y_pred σ' e h₁ h₂ h₃ h₄
    simp only [train_and_eval, bindE, h₁, h₂, h₃, h₄]
  · intro t X y σ σ' e h
    simpa only [objective] using h
  · intro X y md ne σ σ' e h
    simp only [seq_call, bindE, h]
  · intro α name block σ σ' e h
    exact timed_err h
  · intro s tr σ σ' e h
    simp only [mlflow_callback, bindE, h]
  · intro s tr σ σ₁ σ' e h₁ h₂
    simp only [mlflow_callback, bindE, printL, h₁, h₂]
  · intro s tr σ σ₁ σ₂ σ' e h₁ h₂ h₃
    simp only [mlflow_callback, bindE, printL, h₁, h₂, h₃]
  · intro c X y ts prior sampler nm cbs σ σ' e h
    simp only [run_study]
    rw [timed_err (bindE_err h)]
  · intro c X y ts prior sampler nm cbs σ σ₁ σ' e h₁ h₂
    simp only [run_study]
    rw [timed_err ((bindE_ok h₁).trans h₂)]
  · intro c ws t X y σ σ' e h
    simp only [objective_mg, bindE, h]
  · intro c ws t X y σ σ₁ Xt Xv yt yv σ' e h₁ h₂
    simp only [objective_mg, bindE, h₁, h₂]
  · intro c ws t X y σ σ₁ Xt Xv yt yv σ₂ Xtd σ₃ Xvd σ₄ ytd σ₅ yvd σ' e
      h₁ h₂ h₃ h₄ h₅ h₆
    simp only [objective_mg, bindE, h₁, h₂, h₃, h₄, h₅, h₆]
  · intro c ws t X y σ σ₁ Xt Xv yt yv σ₂ Xtd σ₃ Xvd σ₄ ytd σ₅ yvd σ₆ Ptd Pvd Qtd
      Qvd σ₇ fitted σ₈ y_pred σ₉ computed σ' e h₁ h₂ h₃ h₄ h₅ h₆ h₇ h₈ h₉ h₁₀
    simp only [objective_mg, bindE, h₁, h₂, h₃, h₄, h₅, h₆, h₇, h₈, h₉, h₁₀]

/-- Witness for C2: with a library whose `fit` raises, `train_and_eval`'s
outcome at a concrete input is exactly that exception. -/
theorem C2_witness :
    train_and_eval errLib 0 1 16 100 w0 =
      (.error (), logOnly CallEv.rf_fit (logOnly (CallEv.train_test_split 77) w0)) :=
  (C2_exceptions_propagate errLib).2.1 0 1 16 100 w0
    (logOnly (CallEv.train_test_split 77) w0) 10 11 11 12
    (logOnly CallEv.rf_fit (logOnly (CallEv.train_test_split 77) w0)) () rfl rfl

/-- C3 (amended): every wrapper function of the notebook executes the same
fixed sequence of delegated library calls regardless of its input's value —
`train_and_eval`, `objective` and `seq_call` always perform
split → fit → predict → score, `objective_mg` always performs
split → four `from_cudf` conversions → persist → fit → predict → compute →
score, `mlflow_callback` always performs start-run → log-params → log-metrics,
and `timed` delegates exactly the calls of its block — and the one piece of
conditional behavior any wrapper has of its own is `mlflow_callback`
substituting NaN for a missing trial value before logging. -/
theorem C3_wrappers_fixed_call_sequence {ε : Type} (lib : MLLib ε)
    (hl : CallLogging lib) :
    (∀ X y md ne σ v σ', train_and_eval lib X y md ne σ = (.ok v, σ') →
      σ'.calls.map callName = σ.calls.map callName
        ++ ["train_test_split", "rf_fit", "rf_predict", "accuracy_score"]) ∧
    (∀ t X y σ v σ', objective lib t X y σ = (.ok v, σ') →
      σ'.calls.map callName = σ.calls.map callName
        ++ ["train_test_split", "rf_fit", "rf_predict", "accuracy_score"]) ∧
    (∀ X y md ne σ v σ', seq_call lib X y md ne σ = (.ok v, σ') →
      σ'.calls.map callName = σ.calls.map callName
        ++ ["train_test_split", "rf_fit", "rf_predict", "accuracy_score"]) ∧
    (∀ c ws t X y σ v σ', objective_mg lib c ws t X y σ = (.ok v, σ') →
      σ'.calls.map callName = σ.calls.map callName
        ++ ["train_test_split", "from_cudf", "from_cudf", "from_cudf",
          "from_cudf", "persist_across_workers", "dask_rf_fit",
          "dask_rf_predict", "dask_compute", "accuracy_score"]) ∧
    (∀ s tr σ v σ', mlflow_callback lib s tr σ = (.ok v, σ') →
      σ'.calls.map callName = σ.calls.map callName
        ++ ["mlflow_start_run", "mlflow_log_params", "mlflow_log_metrics"]) ∧
    (∀ (α : Type) (name : String) (block : Eff ε α) σ,
      ((timed lib name block σ).2).calls = ((block (tick σ)).2).calls) ∧
    (∀ tr : TrialRecord,
      mlflowMetricArg tr = (tr.value.map MetricVal.num).getD MetricVal.nan) := by
  refine ⟨?_, ?_, ?_, ?_, ?_, ?_, ?_⟩
  · intro X y md ne σ v σ' h
    rw [train_and_eval_evs hl X y md ne σ v σ' h]
    simp [callName]
  · intro t X y σ v σ' h
    rw [objective_evs hl t X y σ v σ' h]
    simp [callName]
  · intro X y md ne σ v σ' h
    rw [seq_call_evs hl X y md ne σ v σ' h]
    simp [callName]
  · intro c ws t X y σ v σ' h
    rw [objective_mg_evs hl c ws t X y σ v σ' h]
    simp [callName]
  · intro s tr σ v σ' h
    rw [mlflow_callback_evs hl s tr σ v σ' h]
    simp [callName]
  · intro α name block σ
    exact timed_calls lib name block σ
  · rintro ⟨ps, v⟩
    cases v <;> rfl

/-- C3 counterexample: the claim's "no conditional behavior of its own" fails
for `mlflow_callback` — the metric it logs is not unconditionally the trial's
own value passed through: at a trial whose value is `None`, the callback's
conditional substitutes NaN instead. -/
theorem C3_counterexample :
    ¬ ∀ tr : TrialRecord, some (mlflowMetricArg tr) = tr.value.map MetricVal.num := by
  intro h
  have h₀ := h ⟨[], none⟩
  simp [mlflowMetricArg] at h₀

/-- Witness for C3 at a concrete library and run. -/
theorem C3_witness :
    ((logOnly CallEv.accuracy_score (logOnly CallEv.rf_predict
        (logOnly CallEv.rf_fit (logOnly (CallEv.train_test_split 77) w0)))).calls).map
        callName =
      (w0.calls).map callName
        ++ ["train_test_split", "rf_fit", "rf_predict", "accuracy_score"] :=
  (C3_wrappers_fixed_call_sequence okLib okLib_logs).1 0 1 16 100 w0 42
    (logOnly CallEv.accuracy_score (logOnly CallEv.rf_predict
      (logOnly CallEv.rf_fit (logOnly (CallEv.train_test_split 77) w0)))) rfl

/-- C4: after `run_study` returns, the returned study was created with
direction "maximize" and `load_if_exists=True`, records exactly the finished
trials (the loaded ones plus one record per executed trial) whose count is the
number printed, and its `best_trial` is a trial of the study whose value is
greater than or equal to the value of every other trial in the study. -/
theorem C4_run_study_spec {ε : Type} (lib : MLLib ε) (c : Client) (X y : Ref)
    (ts : List Trial) (prior : List TrialRecord) (sampler study_name : String)
    (callbacks : List (StudyState → TrialRecord → Eff ε Unit))
    (σ : World) (study : StudyState) (σ' : World)
    (h : run_study lib c X y ts prior sampler study_name callbacks σ =
      (.ok study, σ')) :
    study.direction = Direction.maximize ∧
    study.load_if_exists = true ∧
    study.trials.length = prior.length + ts.length ∧
    Line.nTrials study.trials.length ∈ σ'.printed ∧
    ∃ bt, best_trial study.trials = some bt ∧ bt ∈ study.trials ∧
      ∀ u ∈ study.trials, ovle u.value bt.value = true := by
  simp only [run_study] at h
  split at h
  · simp at h
  · rename_i study₀ σ₁ heq
    split at h
    · simp at h
    · rename_i bt heq2
      simp only [Prod.mk.injEq, Except.ok.injEq] at h
      obtain ⟨h_study, h_out⟩ := h
      subst h_study
      subst h_out
      simp only [timed] at heq
      split at heq
      · simp at heq
      · rename_i a σb heq3
        simp only [Prod.mk.injEq, Except.ok.injEq] at heq
        obtain ⟨h_a, h_σ₁⟩ := heq
        subst h_a
        simp only [bindE] at heq3
        split at heq3
        · simp at heq3
        · rename_i u σc heq4
          obtain ⟨new, h_shape, h_len⟩ := optimize_ok_shape heq3
          subst h_shape
          refine ⟨rfl, rfl, ?_, ?_, bt, heq2, best_trial_mem heq2,
            best_trial_ge heq2⟩
          · simp [create_study, h_len]
          · simp

/-- A concrete two-worker client. -/
def c0 : Client := ⟨[0, 1]⟩

/-- The study produced by the concrete `run_study` run of the witnesses. -/
def studyW : StudyState :=
  { sampler := "TPESampler"
    study_name := "Optuna-MultiGPU"
    storage := "sqlite:///_Optuna-MultiGPU.db"
    direction := Direction.maximize
    load_if_exists := true
    trials := [⟨[("max_depth", 10), ("n_estimators", 200)], some 42⟩] }

/-- The final world of the concrete `run_study` run of the witnesses. -/
def outW : World :=
  { heap := [(0, [5]), (1, [7])]
    printed := [Line.timedLine "Optuna-MultiGPU" 1, Line.nTrials 1,
      Line.bestHeader, Line.bestValue (some 42), Line.paramsHeader,
      Line.paramEntry "max_depth" 10, Line.paramEntry "n_estimators" 200]
    calls := [CallEv.parallel_backend "dask" 2, CallEv.train_test_split 77,
      CallEv.rf_fit, CallEv.rf_predict, CallEv.accuracy_score]
    ticks := 2 }

/-- Witness for C4 at a concrete library, client, trial list and world. -/
theorem C4_witness :
    studyW.direction = Direction.maximize ∧
    studyW.load_if_exists = true ∧
    studyW.trials.length = ([] : List TrialRecord).length + [loTrial].length ∧
    Line.nTrials studyW.trials.length ∈ outW.printed ∧
    ∃ bt, best_trial studyW.trials = some bt ∧ bt ∈ studyW.trials ∧
      ∀ u ∈ studyW.trials, ovle u.value bt.value = true :=
  C4_run_study_spec okLib c0 0 1 [loTrial] [] "TPESampler" "Optuna-MultiGPU" []
    w0 studyW outW rfl

/-- C5: every external interaction uses a fixed local name — the input table
is read from the single constant path `INPUT_FILE`, every study created (in
`run_study` and in each inline `create_study` cell) persists to the sqlite
file `"sqlite:///_" ++ study_name ++ ".db"`, and this naming is injective, so
distinct study names never share a trial-history file. -/
theorem C5_fixed_external_paths {ε : Type} (lib : MLLib ε) (hl : CallLogging lib) :
    INPUT_FILE = "/home/hyperopt/hyperopt/data/air_par.parquet" ∧
    (∀ σ, ∃ rest, ((load_data lib σ).2).calls =
      σ.calls ++ CallEv.read_parquet INPUT_FILE :: rest) ∧
    (∀ c X y ts prior sampler nm cbs σ st σ',
      run_study lib c X y ts prior sampler nm cbs σ = (.ok st, σ') →
      st.storage = "sqlite:///_" ++ nm ++ ".db" ∧ st.study_name = nm) ∧
    (∀ c X y ts prior σ st σ', cell_loky lib c X y ts prior σ = (.ok st, σ') →
      st.storage = "sqlite:///_" ++ "optuna-joblib-loky-backend" ++ ".db" ∧
      st.study_name = "optuna-joblib-loky-backend") ∧
    (∀ X y ts prior σ st σ', cell_simple lib X y ts prior σ = (.ok st, σ') →
      st.storage = "sqlite:///_" ++ "optuna-simple" ++ ".db" ∧
      st.study_name = "optuna-simple") ∧
    (∀ c X y ts prior σ st σ', cell_mnmg lib c X y ts prior σ = (.ok st, σ') →
      st.storage = "sqlite:///_" ++ "optuna-mnmg-joblib---" ++ ".db" ∧
      st.study_name = "optuna-mnmg-joblib---") ∧
    (∀ n₁ n₂ : String,
      "sqlite:///_" ++ n₁ ++ ".db" = "sqlite:///_" ++ n₂ ++ ".db" → n₁ = n₂) := by
  refine ⟨rfl, ?_, ?_, ?_, ?_, ?_, ?_⟩
  · intro σ
    simp only [load_data]
    refine bindE_calls_prefix (hl.read_log INPUT_FILE) ?_ σ
    intro df
    refine callsMonotone_bindE (callsMonotone_of_logs (hl.drop_log _ _)) ?_
    intro X
    refine callsMonotone_bindE (callsMonotone_of_logs (hl.astype_log _ _)) ?_
    intro y
    exact callsMonotone_pureE _
  · intro c X y ts prior sampler nm cbs σ st σ' h
    simp only [run_study] at h
    split at h
    · simp at h
    · rename_i study₀ σ₁ heq
      split at h
      · simp at h
      · rename_i bt heq2
        simp only [Prod.mk.injEq, Except.ok.injEq] at h
        obtain ⟨h_study, h_out⟩ := h
        subst h_study
        simp only [timed] at heq
        split at heq
        · simp at heq
        · rename_i a σb heq3
          simp only [Prod.mk.injEq, Except.ok.injEq] at heq
          obtain ⟨h_a, h_σ₁⟩ := heq
          subst h_a
          simp only [bindE] at heq3
          split at heq3
          · simp at heq3
          · rename_i u σc heq4
            obtain ⟨new, h_shape, h_len⟩ := optimize_ok_shape heq3
            subst h_shape
            exact ⟨rfl, rfl⟩
  · intro c X y ts prior σ st σ' h
    simp only [cell_loky, timed] at h
    split at h
    · simp at h
    · rename_i a σb heq3
      simp only [Prod.mk.injEq, Except.ok.injEq] at h
      obtain ⟨h_a, h_out⟩ := h
      subst h_a
      simp only [bindE] at heq3
      split at heq3
      · simp at heq3
      · rename_i u σc heq4
        obtain ⟨new, h_shape, h_len⟩ := optimize_ok_shape heq3
        subst h_shape
        exact ⟨rfl, rfl⟩
  · intro X y ts prior σ st σ' h
    simp only [cell_simple, timed] at h
    split at h
    · simp at h
    · rename_i a σb heq3
      simp only [Prod.mk.injEq, Except.ok.injEq] at h
      obtain ⟨h_a, h_out⟩ := h
      subst h_a
      obtain ⟨new, h_shape, h_len⟩ := optimize_ok_shape heq3
      subst h_shape
      exact ⟨rfl, rfl⟩
  · intro c X y ts prior σ st σ' h
    simp only [cell_mnmg, timed] at h
    split at h
    · simp at h
    · rename_i a σb heq3
      simp only [Prod.mk.injEq, Except.ok.injEq] at h
      obtain ⟨h_a, h_out⟩ := h
      subst h_a
      simp only [bindE] at heq3
      split at heq3
      · simp at heq3
      · rename_i u σc heq4
        obtain ⟨new, h_shape, h_len⟩ := optimize_ok_shape heq3
        subst h_shape
        exact ⟨rfl, rfl⟩
  · intro n₁ n₂ h
    have hd : ("sqlite:///_" ++ n₁ ++ ".db").data =
        ("sqlite:///_" ++ n₂ ++ ".db").data := by rw [h]
    simp only [String.data_append, List.append_assoc] at hd
    have h₁ := List.append_cancel_left hd
    have h₂ := List.append_cancel_right h₁
    cases n₁
    cases n₂
    simp only at h₂
    rw [h₂]

/-- Witness for C5 at concrete runs. -/
theorem C5_witness :
    (studyW.storage = "sqlite:///_" ++ "Optuna-MultiGPU" ++ ".db" ∧
      studyW.study_name = "Optuna-MultiGPU") ∧
    (∃ rest, ((load_data okLib w0).2).calls =
      w0.calls ++ CallEv.read_parquet INPUT_FILE :: rest) ∧
    ("optuna-simple" : String) = "optuna-simple" :=
  ⟨(C5_fixed_external_paths okLib okLib_logs).2.2.1 c0 0 1 [loTrial] []
      "TPESampler" "Optuna-MultiGPU" [] w0 studyW outW rfl,
    (C5_fixed_external_paths okLib okLib_logs).2.1 w0,
    (C5_fixed_external_paths okLib okLib_logs).2.2.2.2.2.2 "optuna-simple"
      "optuna-simple" rfl⟩

/-- C6: the frames `X` and `y` are passed unchanged into every library call —
no wrapper of the notebook (`objective`, `objective_mg`, `seq_call`,
`run_study`, `train_and_eval`) mutates the frames it receives: under the
library contract that calls leave existing heap objects untouched, every
wrapper run (raising or not) preserves every frame on the heap, and in
particular `X` and `y` hold the same contents after any number of trials of a
whole study as they did initially. -/
theorem C6_frames_unchanged {ε : Type} (lib : MLLib ε) (hp : HeapMono lib) :
    (∀ X y md ne σ, HeapExt σ ((train_and_eval lib X y md ne σ).2)) ∧
    (∀ t X y σ, HeapExt σ ((objective lib t X y σ).2)) ∧
    (∀ c ws t X y σ, HeapExt σ ((objective_mg lib c ws t X y σ).2)) ∧
    (∀ X y md ne σ, HeapExt σ ((seq_call lib X y md ne σ).2)) ∧
    (∀ c X y ts prior sampler nm cbs,
      (∀ cb ∈ cbs, ∀ s tr, PreservesHeap (cb s tr)) →
      ∀ σ, HeapExt σ ((run_study lib c X y ts prior sampler nm cbs σ).2)) ∧
    (∀ c X y ts prior sampler nm cbs σ fx fy,
      (∀ cb ∈ cbs, ∀ s tr, PreservesHeap (cb s tr)) →
      lookupH σ.heap X = some fx → lookupH σ.heap y = some fy →
      lookupH (((run_study lib c X y ts prior sampler nm cbs σ).2)).heap X =
          some fx ∧
        lookupH (((run_study lib c X y ts prior sampler nm cbs σ).2)).heap y =
          some fy) := by
  refine ⟨?_, ?_, ?_, ?_, ?_, ?_⟩
  · intro X y md ne σ
    exact train_and_eval_heap hp X y md ne σ
  · intro t X y σ
    exact objective_heap hp t X y σ
  · intro c ws t X y σ
    exact objective_mg_heap hp c ws t X y σ
  · intro X y md ne σ
    exact seq_call_heap hp X y md ne σ
  · intro c X y ts prior sampler nm cbs hcb σ
    exact run_study_heap hp c X y ts prior sampler nm cbs hcb σ
  · intro c X y ts prior sampler nm cbs σ fx fy hcb hx hy
    have h := run_study_heap hp c X y ts prior sampler nm cbs hcb σ
    exact ⟨h X fx hx, h y fy hy⟩

/-- Witness for C6 at a concrete library, client and study run. -/
theorem C6_witness :
    lookupH ((run_study okLib c0 0 1 [loTrial] [] "TPESampler" "Optuna-MultiGPU"
        [] w0).2).heap 0 = some [5] ∧
    lookupH ((run_study okLib c0 0 1 [loTrial] [] "TPESampler" "Optuna-MultiGPU"
        [] w0).2).heap 1 = some [7] :=
  (C6_frames_unchanged okLib okLib_heap).2.2.2.2.2 c0 0 1 [loTrial] []
    "TPESampler" "Optuna-MultiGPU" [] w0 [5] [7] (by simp) rfl rfl

theorem callsMonotone_seq_call {ε : Type} {lib : MLLib ε} (hl : CallLogging lib)
    (X y : Ref) (md ne : Int) : CallsMonotone (seq_call lib X y md ne) := by
  simp only [seq_call]
  refine callsMonotone_bindE (callsMonotone_train_and_eval hl X y md ne) ?_
  intro s
  exact callsMonotone_pureE _

theorem callsMonotone_seq_call_tasks {ε : Type} {lib : MLLib ε}
    (hl : CallLogging lib) (X y : Ref) (pmd pne : Nat → Int) (is : List Nat) :
    CallsMonotone (seq_call_tasks lib X y pmd pne is) := by
  induction is with
  | nil => exact callsMonotone_pureE _
  | cons i rest ih =>
    simp only [seq_call_tasks]
    refine callsMonotone_bindE (callsMonotone_seq_call hl X y _ _) ?_
    intro r
    refine callsMonotone_bindE ih ?_
    intro rs
    exact callsMonotone_pureE _

/-- C8: the notebook only supplies concurrency configuration — `n_workers` is
the worker count queried from the cluster client, every `parallel_backend`
invocation of the notebook (in `run_study` and the loky, joblib-dask and
multi-GPU cells) passes `n_jobs` equal to that `n_workers`, and `objective_mg`
converts each of its four train/validation frames with exactly
`npartitions=2`, independent of the client and worker list it is given. -/
theorem C8_concurrency_config {ε : Type} (lib : MLLib ε) (hl : CallLogging lib) :
    (∀ c : Client, n_workers c = c.workers.length) ∧
    (∀ c X y ts prior sampler nm cbs,
      (∀ cb ∈ cbs, ∀ s tr, CallsMonotone (cb s tr)) →
      ∀ σ, ∃ rest, ((run_study lib c X y ts prior sampler nm cbs σ).2).calls =
        σ.calls ++ CallEv.parallel_backend "dask" (n_workers c) :: rest) ∧
    (∀ c X y ts prior σ, ∃ rest, ((cell_loky lib c X y ts prior σ).2).calls =
      σ.calls ++ CallEv.parallel_backend "loky" (n_workers c) :: rest) ∧
    (∀ c X y pmd pne N_TRIALS σ, ∃ rest,
      ((cell_seq_dask lib c X y pmd pne N_TRIALS σ).2).calls =
        σ.calls ++ CallEv.parallel_backend "dask" (n_workers c) :: rest) ∧
    (∀ c X y ts prior σ, ∃ rest, ((cell_mnmg lib c X y ts prior σ).2).calls =
      σ.calls ++ CallEv.parallel_backend "dask" (n_workers c) :: rest) ∧
    (∀ c ws t X y σ v σ', objective_mg lib c ws t X y σ = (.ok v, σ') →
      σ'.calls = σ.calls ++ [CallEv.train_test_split 77, CallEv.from_cudf 2,
        CallEv.from_cudf 2, CallEv.from_cudf 2, CallEv.from_cudf 2,
        CallEv.persist_across_workers, CallEv.dask_rf_fit,
        CallEv.dask_rf_predict, CallEv.dask_compute,
        CallEv.accuracy_score]) := by
  refine ⟨fun c => rfl, ?_, ?_, ?_, ?_, ?_⟩
  · intro c X y ts prior sampler nm cbs hcb σ
    rw [run_study_calls lib c X y ts prior sampler nm cbs σ,
      timed_calls]
    exact bindE_calls_prefix (hl.backend_log "dask" (n_workers c))
      (fun u => callsMonotone_optimize
        (fun t => callsMonotone_objective hl t X y) hcb _) (tick σ)
  · intro c X y ts prior σ
    simp only [cell_loky]
    rw [timed_calls]
    exact bindE_calls_prefix (hl.backend_log "loky" (n_workers c))
      (fun u => callsMonotone_optimize
        (fun t => callsMonotone_objective hl t X y) (by simp) _) (tick σ)
  · intro c X y pmd pne N_TRIALS σ
    simp only [cell_seq_dask]
    rw [timed_calls]
    refine bindE_calls_prefix (hl.backend_log "dask" (n_workers c)) ?_ (tick σ)
    intro u
    refine callsMonotone_bindE (callsMonotone_seq_call_tasks hl X y pmd pne _) ?_
    intro results
    refine callsMonotone_bindE (callsMonotone_printL _) ?_
    intro u'
    exact callsMonotone_pureE _
  · intro c X y ts prior σ
    simp only [cell_mnmg]
    rw [timed_calls]
    exact bindE_calls_prefix (hl.backend_log "dask" (n_workers c))
      (fun u => callsMonotone_optimize
        (fun t => callsMonotone_objective_mg hl c c.workers t X y) (by simp) _)
      (tick σ)
  · intro c ws t X y σ v σ' h
    exact objective_mg_evs hl c ws t X y σ v σ' h

/-- Witness for C8 at a concrete client, library and runs. -/
theorem C8_witness :
    n_workers c0 = c0.workers.length ∧
    (∃ rest, ((run_study okLib c0 0 1 [loTrial] [] "TPESampler" "Optuna-MultiGPU"
        [] w0).2).calls =
      w0.calls ++ CallEv.parallel_backend "dask" (n_workers c0) :: rest) ∧
    ({ w0 with calls := [CallEv.train_test_split 77, CallEv.from_cudf 2,
        CallEv.from_cudf 2, CallEv.from_cudf 2, CallEv.from_cudf 2,
        CallEv.persist_across_workers, CallEv.dask_rf_fit,
        CallEv.dask_rf_predict, CallEv.dask_compute,
        CallEv.accuracy_score] } : World).calls =
      w0.calls ++ [CallEv.train_test_split 77, CallEv.from_cudf 2,
        CallEv.from_cudf 2, CallEv.from_cudf 2, CallEv.from_cudf 2,
        CallEv.persist_across_workers, CallEv.dask_rf_fit,
        CallEv.dask_rf_predict, CallEv.dask_compute, CallEv.accuracy_score] :=
  ⟨(C8_concurrency_config okLib okLib_logs).1 c0,
    (C8_concurrency_config okLib okLib_logs).2.1 c0 0 1 [loTrial] [] "TPESampler"
      "Optuna-MultiGPU" [] (by simp) w0,
    (C8_concurrency_config okLib okLib_logs).2.2.2.2.2 c0 [0, 1] loTrial 0 1 w0
      42 _ rfl⟩

/-- C9: `train_and_eval` (and likewise `objective_mg`) always calls
`train_test_split` with the fixed seed `random_state=77` — the seed recorded
with the split call is the constant 77 on every run — and with the library's
fixed-seed determinism the split's partition, and hence the whole evaluation's
outcome, is identical across two runs on the same `X_param`, `y_param`,
whatever state the runs start from: the split is deterministic across runs and
across all trials of a study, not randomized. -/
theorem C9_split_fixed_seed {ε : Type} (lib : MLLib ε) :
    (CallLogging lib → ∀ X y md ne σ, ∃ rest,
      ((train_and_eval lib X y md ne σ).2).calls =
        σ.calls ++ CallEv.train_test_split 77 :: rest) ∧
    (CallLogging lib → ∀ c ws t X y σ, ∃ rest,
      ((objective_mg lib c ws t X y σ).2).calls =
        σ.calls ++ CallEv.train_test_split 77 :: rest) ∧
    (DetLib lib → ∀ X y σ₁ σ₂,
      (lib.train_test_split X y 77 σ₁).1 = (lib.train_test_split X y 77 σ₂).1) ∧
    (DetLib lib → ∀ X y md ne σ₁ σ₂,
      (train_and_eval lib X y md ne σ₁).1 =
        (train_and_eval lib X y md ne σ₂).1) := by
  refine ⟨?_, ?_, ?_, ?_⟩
  · intro hl X y md ne σ
    simp only [train_and_eval]
    refine bindE_calls_prefix (hl.split_log X y 77) ?_ σ
    rintro ⟨Xt, Xv, yt, yv⟩
    refine callsMonotone_bindE (callsMonotone_of_logs (hl.fit_log _ _ _)) ?_
    intro fitted
    refine callsMonotone_bindE (callsMonotone_of_logs (hl.predict_log _ _)) ?_
    intro y_pred
    exact callsMonotone_of_logs (hl.acc_log _ _)
  · intro hl c ws t X y σ
    simp only [objective_mg]
    refine bindE_calls_prefix (hl.split_log X y 77) ?_ σ
    rintro ⟨Xt, Xv, yt, yv⟩
    refine callsMonotone_bindE (callsMonotone_of_logs (hl.from_cudf_log _ 2)) ?_
    intro Xtd
    refine callsMonotone_bindE (callsMonotone_of_logs (hl.from_cudf_log _ 2)) ?_
    intro Xvd
    refine callsMonotone_bindE (callsMonotone_of_logs (hl.from_cudf_log _ 2)) ?_
    intro ytd
    refine callsMonotone_bindE (callsMonotone_of_logs (hl.from_cudf_log _ 2)) ?_
    intro yvd
    refine callsMonotone_bindE (callsMonotone_of_logs (hl.persist_log _ _ _)) ?_
    rintro ⟨a, b, d, e⟩
    refine callsMonotone_bindE (callsMonotone_of_logs (hl.dfit_log _ _ _)) ?_
    intro fitted
    refine callsMonotone_bindE (callsMonotone_of_logs (hl.dpredict_log _ _)) ?_
    intro y_pred
    refine callsMonotone_bindE (callsMonotone_of_logs (hl.compute_log _)) ?_
    intro computed
    exact callsMonotone_of_logs (hl.acc_log _ _)
  · intro hd X y σ₁ σ₂
    exact hd.split_det X y 77 σ₁ σ₂
  · intro hd X y md ne σ₁ σ₂
    exact valueDet_train_and_eval hd X y md ne σ₁ σ₂

/-- Witness for C9: the concrete library's trace records the seed 77, and two
runs from different states return the same value. -/
theorem C9_witness :
    (∃ rest, ((train_and_eval okLib 0 1 16 100 w0).2).calls =
      w0.calls ++ CallEv.train_test_split 77 :: rest) ∧
    (train_and_eval okLib 0 1 16 100 w0).1 =
      (train_and_eval okLib 0 1 16 100 (tick w0)).1 :=
  ⟨(C9_split_fixed_seed okLib).1 okLib_logs 0 1 16 100 w0,
    (C9_split_fixed_seed okLib).2.2.2 okLib_det 0 1 16 100 w0 (tick w0)⟩
